import Mathlib

/-!
# Verification of the hydro dataflow-graph compiler

Shallow embedding of the flat-to-partitioned lowering
(`hydroflow_lang/src/graph/flat_to_partitioned.rs`, with helpers from
`hydroflow_lang/src/graph/mod.rs`), the IR graph transformations
(`hydro_lang/src/ir.rs`) and the `join` operator catalogue entry
(`hydroflow_lang/src/graph/ops/join.rs`).

Slotmap keys (`GraphNodeId`, `GraphEdgeId`, `GraphSubgraphId`) are modelled
as `Nat`; slotmaps and `SecondaryMap`s as association lists ordered by key,
so that iteration order in the embedding matches the key-ordered iteration
of the Rust maps.  Spans are opaque `Nat` tokens.
-/

/-- Key-ordered association list lookup (`SecondaryMap::get` / `BTreeMap::get`). -/
def alookup {α : Type} (m : List (Nat × α)) (k : Nat) : Option α :=
  match m with
  | [] => none
  | (k', v) :: rest => if k' = k then some v else alookup rest k

/-- Insert or replace a binding, keeping the list ordered by key
(`SecondaryMap::insert` / `BTreeMap::insert`). -/
def ainsert {α : Type} (m : List (Nat × α)) (k : Nat) (v : α) : List (Nat × α) :=
  match m with
  | [] => [(k, v)]
  | (k', v') :: rest =>
    if k < k' then (k, v) :: (k', v') :: rest
    else if k' = k then (k, v) :: rest
    else (k', v') :: ainsert rest k v

/-- Remove a binding by key (`SecondaryMap::remove`). -/
def aremove {α : Type} (m : List (Nat × α)) (k : Nat) : List (Nat × α) :=
  match m with
  | [] => []
  | (k', v') :: rest => if k' = k then rest else (k', v') :: aremove rest k

/-- Append `v` to the `Vec` stored at key `k`
(`map.entry(k).or_default().push(v)`). -/
def apush (m : List (Nat × List Nat)) (k : Nat) (v : Nat) : List (Nat × List Nat) :=
  ainsert m k ((alookup m k).getD [] ++ [v])

/-- Maximum of a list of naturals (`Iterator::max`). -/
def listMax : List Nat → Option Nat
  | [] => none
  | x :: rest =>
    match listMax rest with
    | none => some x
    | some m => some (max x m)

/-- `Option<usize>` comparison as used by Rust's derived `Ord`
(`None` sorts below every `Some`). -/
def optLE : Option Nat → Option Nat → Bool
  | none, _ => true
  | some _, none => false
  | some a, some b => a ≤ b

/-- Delay type of an input port (`ops::DelayType`). -/
inductive DelayType
  | Tick
  | Stratum
deriving DecidableEq, Repr

/-- Node colors (`graph::Color`). -/
inductive Color
  | Pull
  | Push
  | Comp
  | Hoff
deriving DecidableEq, Repr

/-- Port index values (`PortIndexValue`), with their spans.
Spans are opaque `Nat` tokens; `Elided` defaults to span `0` (call site). -/
inductive PortIdx
  | int (value : Nat) (span : Nat)
  | path (name : String) (span : Nat)
  | elided (span : Nat)
deriving DecidableEq, Repr

/-- The span of a port index value (`PortIndexValue::span`). -/
def PortIdx.spanOf : PortIdx → Nat
  | .int _ s => s
  | .path _ s => s
  | .elided s => s

/-- Diagnostic levels (`diagnostic::Level`). -/
inductive Level
  | error
  | warning
deriving DecidableEq, Repr

/-- A structured diagnostic (`diagnostic::Diagnostic`). -/
structure Diagnostic where
  span : Nat
  level : Level
  message : String
deriving DecidableEq, Repr

/-- The part of an operator catalogue entry consulted by the lowering:
the `is_external_input` flag and the per-input-port delay type
(`OperatorConstraints.is_external_input`, `input_delaytype_fn`).
The catalogue is a pure-data input of the lowering, carried on each
operator node. -/
structure OpProps where
  isExternalInput : Bool
  inputDelay : PortIdx → Option DelayType

/-- Graph nodes (`graph::Node`): an operator (carrying its catalogue
properties and its source text) or a handoff. -/
inductive GNode
  | operator (props : OpProps) (text : String)
  | handoff

/-- Whether a node is a handoff (`matches!(node, Node::Handoff { .. })`). -/
def GNode.isHandoff : GNode → Bool
  | .operator _ _ => false
  | .handoff => true

/-- Whether a node is an operator. -/
def GNode.isOperator : GNode → Bool
  | .operator _ _ => true
  | .handoff => false

/-- A directed edge between node ids. -/
structure GEdge where
  src : Nat
  dst : Nat
deriving DecidableEq, Repr

/-- The graph being partitioned (`PartitionedGraph`): node and edge tables,
per-edge port pairs, and the partitioning data filled in by the builder.
A freshly imported flat graph has all partitioning fields empty. -/
structure PGraph where
  nodes : List (Nat × GNode)
  edges : List (Nat × GEdge)
  ports : List (Nat × (PortIdx × PortIdx))
  nextNode : Nat
  nextEdge : Nat
  nodeSubgraph : List (Nat × Nat)
  subgraphNodes : List (Nat × List Nat)
  nextSubgraph : Nat
  subgraphStratum : List (Nat × Nat)
  subgraphRecvHandoffs : List (Nat × List Nat)
  subgraphSendHandoffs : List (Nat × List Nat)
  subgraphInternalHandoffs : List (Nat × List Nat)
  nodeColor : List (Nat × Color)

/-- Predecessor entries of a node: all `(edge_id, edge)` with `edge.dst = n`
(`PartitionedGraph::predecessors`), in edge-id order. -/
def PGraph.predecessors (g : PGraph) (n : Nat) : List (Nat × GEdge) :=
  g.edges.filter (fun e => e.2.dst = n)

/-- Successor entries of a node: all `(edge_id, edge)` with `edge.src = n`
(`PartitionedGraph::successors`), in edge-id order. -/
def PGraph.successors (g : PGraph) (n : Nat) : List (Nat × GEdge) :=
  g.edges.filter (fun e => e.2.src = n)

/-- In-degree of a node (`PartitionedGraph::degree_in`). -/
def PGraph.degreeIn (g : PGraph) (n : Nat) : Nat :=
  (g.predecessors n).length

/-- Out-degree of a node (`PartitionedGraph::degree_out`). -/
def PGraph.degreeOut (g : PGraph) (n : Nat) : Nat :=
  (g.successors n).length

/-- Stratum of a subgraph (`PartitionedGraph::subgraph_stratum`). -/
def PGraph.stratumOf (g : PGraph) (sg : Nat) : Option Nat :=
  alookup g.subgraphStratum sg

/-- Largest assigned stratum (`PartitionedGraph::max_stratum`). -/
def PGraph.maxStratum (g : PGraph) : Option Nat :=
  listMax (g.subgraphStratum.map (·.2))

/-- `node_color` (graph/mod.rs): compute a node's color from whether it is a
handoff and its in/out degrees; `None` means undetermined (linear 1-in 1-out). -/
def nodeColor (isHandoff : Bool) (innDegree outDegree : Nat) : Option Color :=
  if isHandoff then some .Hoff
  else if 1 < innDegree then
    if 1 < outDegree then some .Comp else some .Pull
  else if 1 < outDegree then some .Push
  else if innDegree = 0 then some .Pull
  else if outDegree = 0 then some .Push
  else none

/-- `FlatToPartitionedBuilder::helper_find_node_color`: the sparse map of
determined node colors (nodes with undetermined color get no entry). -/
def findNodeColor (g : PGraph) : List (Nat × Color) :=
  g.nodes.foldl
    (fun acc (p : Nat × GNode) =>
      match nodeColor p.2.isHandoff (g.degreeIn p.1) (g.degreeOut p.1) with
      | some c => ainsert acc p.1 c
      | none => acc)
    []

/-- `can_connect_colorize` (flat_to_partitioned.rs): decide whether the two
endpoint nodes of an edge may share a subgraph, inferring a color into an
undetermined endpoint where possible.  Returns the possibly-updated color
map together with the verdict. -/
def canConnectColorize (nodeColorMap : List (Nat × Color)) (src dst : Nat) :
    List (Nat × Color) × Bool :=
  match alookup nodeColorMap src, alookup nodeColorMap dst with
  | none, none => (nodeColorMap, false)
  | none, some .Pull => (ainsert nodeColorMap src .Pull, true)
  | none, some .Comp => (ainsert nodeColorMap src .Pull, true)
  | none, some .Push => (ainsert nodeColorMap src .Push, true)
  | none, some .Hoff => (ainsert nodeColorMap src .Push, true)
  | some .Pull, none => (ainsert nodeColorMap dst .Pull, true)
  | some .Hoff, none => (ainsert nodeColorMap dst .Pull, true)
  | some .Comp, none => (ainsert nodeColorMap dst .Push, true)
  | some .Push, none => (ainsert nodeColorMap dst .Push, true)
  | some .Pull, some .Pull => (nodeColorMap, true)
  | some .Pull, some .Comp => (nodeColorMap, true)
  | some .Pull, some .Push => (nodeColorMap, true)
  | some .Comp, some .Pull => (nodeColorMap, false)
  | some .Comp, some .Comp => (nodeColorMap, false)
  | some .Comp, some .Push => (nodeColorMap, true)
  | some .Push, some .Pull => (nodeColorMap, false)
  | some .Push, some .Comp => (nodeColorMap, false)
  | some .Push, some .Push => (nodeColorMap, true)
  | some .Hoff, some _ => (nodeColorMap, false)
  | some _, some .Hoff => (nodeColorMap, false)

/-! ## Operator catalogue entries -/

/-- Inclusive arity ranges (`&'static RangeTrait` bounds in the catalogue). -/
structure ArityRange where
  lo : Nat
  hi : Nat
deriving DecidableEq, Repr

/-- Port list specifications (`PortListSpec`): fixed named ports or a
variadic count. -/
inductive PortListSpec
  | fixed (ports : List Nat)
  | variadic
deriving DecidableEq, Repr

/-- The catalogue constraints of an operator (`OperatorConstraints`),
restricted to the data fields the lowering and the claims consult. -/
structure OperatorConstraints where
  name : String
  hardRangeInn : ArityRange
  softRangeInn : ArityRange
  hardRangeOut : ArityRange
  softRangeOut : ArityRange
  numArgs : Nat
  persistenceArgs : ArityRange
  typeArgs : ArityRange
  isExternalInput : Bool
  portsInn : Option PortListSpec
  portsOut : Option PortListSpec
  inputDelaytypeFn : PortIdx → Option DelayType

/-- `RANGE_1`: the inclusive range `1..=1`. -/
def RANGE_1 : ArityRange := ⟨1, 1⟩

/-- `JOIN` (graph/ops/join.rs): the catalogue entry for the `join` operator. -/
def JOIN : OperatorConstraints where
  name := "join"
  hardRangeInn := ⟨2, 2⟩
  softRangeInn := ⟨2, 2⟩
  hardRangeOut := RANGE_1
  softRangeOut := RANGE_1
  numArgs := 0
  persistenceArgs := ⟨0, 2⟩
  typeArgs := ⟨0, 1⟩
  isExternalInput := false
  portsInn := some (.fixed [0, 1])
  portsOut := none
  inputDelaytypeFn := fun _ => none

/-- The node-level properties of a `join` operator as seen by the lowering,
taken from its catalogue entry. -/
def joinProps : OpProps :=
  { isExternalInput := JOIN.isExternalInput
    inputDelay := JOIN.inputDelaytypeFn }

/-! ## Union-find (`union_find::UnionFind`) -/

/-- Union-find over `Nat` keys, as a parent map (missing key = root). -/
structure UnionFind where
  parent : List (Nat × Nat)

/-- Follow parent links, with fuel bounding the chain length. -/
def UnionFind.findAux : Nat → List (Nat × Nat) → Nat → Nat
  | 0, _, x => x
  | fuel + 1, par, x =>
    match alookup par x with
    | none => x
    | some p => if p = x then x else UnionFind.findAux fuel par p

/-- Representative of a key (`UnionFind::find`). -/
def UnionFind.find (u : UnionFind) (x : Nat) : Nat :=
  UnionFind.findAux (u.parent.length + 1) u.parent x

/-- Whether two keys share a class (`UnionFind::same_set`). -/
def UnionFind.sameSet (u : UnionFind) (x y : Nat) : Bool :=
  u.find x = u.find y

/-- Merge the classes of `x` and `y`: the root of `y` is re-parented onto
the root of `x` (`UnionFind::union`). -/
def UnionFind.union (u : UnionFind) (x y : Nat) : UnionFind :=
  let rx := u.find x
  let ry := u.find y
  if rx = ry then u else ⟨ainsert u.parent ry rx⟩

/-! ## `insert_intermediate_node` -/

/-- `insert_intermediate_node` (flat_to_partitioned.rs): split the edge
`A -> B` into `A -> X -> B` for a fresh node `X`.  The source port moves to
the first new edge and the destination port to the second; the two elided
sides get `Elided` ports.  Returns the updated graph, the id of `X`, and
the id of the edge out of `X`. -/
def insertIntermediateNode (g : PGraph) (edgeId : Nat) (node : GNode) :
    PGraph × Nat × Nat :=
  let nodeId := g.nextNode
  match alookup g.edges edgeId, alookup g.ports edgeId with
  | some e, some (srcIdx, dstIdx) =>
    let e0 := g.nextEdge
    let e1 := g.nextEdge + 1
    let g' := { g with
      nodes := ainsert g.nodes nodeId node
      nextNode := g.nextNode + 1
      edges := ainsert (ainsert (aremove g.edges edgeId) e0 ⟨e.src, nodeId⟩)
        e1 ⟨nodeId, e.dst⟩
      nextEdge := g.nextEdge + 2
      ports := ainsert (ainsert (aremove g.ports edgeId) e0 (srcIdx, .elided 0))
        e1 (.elided 0, dstIdx) }
    (g', nodeId, e1)
  | _, _ => (g, nodeId, edgeId)

/-! ## Phase A: barrier crossers and node colors -/

/-- The delay type carried by one edge, if any: the destination must be an
operator and its `input_delaytype_fn` must return a delay for the
destination port (the `?`-chain inside `helper_find_barrier_crossers`). -/
def edgeBarrier (g : PGraph) (eid : Nat) (e : GEdge) : Option DelayType :=
  match alookup g.nodes e.dst with
  | some (.operator props _) =>
    match alookup g.ports eid with
    | some (_, dstIdx) => props.inputDelay dstIdx
    | none => none
  | _ => none

/-- `FlatToPartitionedBuilder::helper_find_barrier_crossers`: the map from
edge id to delay type, for edges whose destination operator declares a
non-`None` delay type on the destination port. -/
def findBarrierCrossers (g : PGraph) : List (Nat × DelayType) :=
  g.edges.foldl
    (fun acc (p : Nat × GEdge) =>
      match edgeBarrier g p.1 p.2 with
      | some dt => ainsert acc p.1 dt
      | none => acc)
    []

/-- The builder state (`FlatToPartitionedBuilder`). -/
structure Builder where
  pg : PGraph
  crossers : List (Nat × DelayType)

/-- `FlatToPartitionedBuilder::from_flat`: compute barrier crossers and
initial node colors. -/
def Builder.fromFlat (g : PGraph) : Builder :=
  { pg := { g with nodeColor := findNodeColor g }
    crossers := findBarrierCrossers g }

/-! ## Phase B: greedy coalescing (`helper_find_subgraph_unionfind`) -/

/-- One full pass over the edges of the coalescing loop.  State:
union-find, color map, remaining handoff-candidate edge ids, progress flag. -/
def coalescePass (g : PGraph) (crossers : List (Nat × DelayType)) :
    UnionFind × List (Nat × Color) × List Nat × Bool →
    UnionFind × List (Nat × Color) × List Nat × Bool := fun st0 =>
  g.edges.foldl
    (fun st (p : Nat × GEdge) =>
      let uf := st.1
      let colors := st.2.1
      let hoffs := st.2.2.1
      let prog := st.2.2.2
      if uf.sameSet p.2.src p.2.dst then st
      else if crossers.any (fun xc =>
          match alookup g.edges xc.1 with
          | some xe =>
            (uf.sameSet xe.src p.2.src && uf.sameSet xe.dst p.2.dst)
              || (uf.sameSet xe.src p.2.dst && uf.sameSet xe.dst p.2.src)
          | none => false) then st
      else
        let res := canConnectColorize colors p.2.src p.2.dst
        if res.2 then (uf.union p.2.src p.2.dst, res.1, hoffs.erase p.1, true)
        else (uf, res.1, hoffs, prog))
    st0

/-- The `while progress` loop, fueled by the node count (each productive
pass removes at least one handoff-candidate edge). -/
def coalesceLoop (g : PGraph) (crossers : List (Nat × DelayType)) :
    Nat → UnionFind × List (Nat × Color) × List Nat →
    UnionFind × List (Nat × Color) × List Nat
  | 0, st => st
  | fuel + 1, st =>
    let r := coalescePass g crossers (st.1, st.2.1, st.2.2, false)
    if r.2.2.2 then coalesceLoop g crossers fuel (r.1, r.2.1, r.2.2.1)
    else (r.1, r.2.1, r.2.2.1)

/-! ## Phase C: handoff insertion -/

/-- Insert a handoff on each remaining handoff edge, skipping edges that
already touch a handoff; a barrier-crosser annotation moves onto the edge
OUT of the inserted handoff (`make_subgraphs`, middle part). -/
def insertHandoffs :
    PGraph × List (Nat × DelayType) → List Nat → PGraph × List (Nat × DelayType)
  | st, [] => st
  | (g, crossers), eid :: rest =>
    match alookup g.edges eid with
    | none => insertHandoffs (g, crossers) rest
    | some e =>
      let srcIsH := match alookup g.nodes e.src with
        | some n => n.isHandoff
        | none => false
      let dstIsH := match alookup g.nodes e.dst with
        | some n => n.isHandoff
        | none => false
      if srcIsH || dstIsH then insertHandoffs (g, crossers) rest
      else
        let r := insertIntermediateNode g eid .handoff
        let crossers' := match alookup crossers eid with
          | some dt => ainsert (aremove crossers eid) r.2.2 dt
          | none => crossers
        insertHandoffs (r.1, crossers') rest

/-! ## Topological sort (`graph_algorithms::topo_sort`) -/

/-- DFS visit: mark, recurse into predecessors, postorder-append
(`TopoSort::visit`).  Fueled by the node count. -/
def topoVisit (preds : Nat → List Nat) : Nat → List Nat × List Nat → Nat → List Nat × List Nat
  | 0, st, _ => st
  | fuel + 1, (marked, order), n =>
    if n ∈ marked then (marked, order)
    else
      let st := (preds n).foldl (fun st' m => topoVisit preds fuel st' m) (n :: marked, order)
      (st.1, st.2 ++ [n])

/-- Topological sort of `ids` by repeated DFS visits, predecessors first. -/
def topoSort (ids : List Nat) (preds : Nat → List Nat) (fuel : Nat) : List Nat :=
  (ids.foldl (fun st n => topoVisit preds fuel st n) ([], [])).2

/-! ## Phase D: subgraph collection (`make_subgraph_collect`) -/

/-- Group the topologically sorted operator nodes by union-find
representative and assign fresh subgraph ids in representative order.
Returns `(node_subgraph, subgraph_nodes, next_subgraph_id)`. -/
def makeSubgraphCollect (g : PGraph) (uf : UnionFind) :
    List (Nat × Nat) × List (Nat × List Nat) × Nat :=
  let opIds := (g.nodes.filter (fun p => !p.2.isHandoff)).map (·.1)
  let predsFn := fun v =>
    ((g.predecessors v).map (fun pe => pe.2.src)).filter
      (fun pid =>
        match alookup g.nodes pid with
        | some n => !n.isHandoff
        | none => true)
  let topo := topoSort opIds predsFn (opIds.length + 1)
  let grouped := topo.foldl (fun acc n => apush acc (uf.find n) n) []
  let sgn := grouped.enum.map (fun p => (g.nextSubgraph + p.1, p.2.2))
  let nsg := sgn.foldl (fun acc p => p.2.foldl (fun a n => ainsert a n p.1) acc) []
  (nsg, sgn, g.nextSubgraph + grouped.length)

/-- `make_subgraphs`: run the coalescing loop, insert handoffs on the
remaining edges, and fill `node_subgraph` / `subgraph_nodes`. -/
def makeSubgraphs (b : Builder) : Builder :=
  let hoffs0 := b.pg.edges.map (·.1)
  let r := coalesceLoop b.pg b.crossers (b.pg.nodes.length + 1)
    (⟨[]⟩, b.pg.nodeColor, hoffs0)
  let pg1 := { b.pg with nodeColor := r.2.1 }
  let st2 := insertHandoffs (pg1, b.crossers) r.2.2
  let coll := makeSubgraphCollect st2.1 r.1
  { pg := { st2.1 with
      nodeSubgraph := coll.1
      subgraphNodes := coll.2.1
      nextSubgraph := coll.2.2 }
    crossers := st2.2 }

/-! ## Phase E: stratum assignment (`find_subgraph_strata`) -/

/-- Add a pair to a set of negative connections (`BTreeSet::insert`). -/
def insertPair (s : List (Nat × Nat)) (p : Nat × Nat) : List (Nat × Nat) :=
  if p ∈ s then s else s ++ [p]

/-- Build the subgraph graph: for every handoff whose outgoing edge is not
a `Tick` crosser, record `(pred_subgraph, succ_subgraph)`; `Stratum`
crossers are additionally recorded as negative connections.
Returns `(subgraph_preds, subgraph_succs, negative_connections)`. -/
def subgraphGraph (g : PGraph) (crossers : List (Nat × DelayType)) :
    List (Nat × List Nat) × List (Nat × List Nat) × List (Nat × Nat) :=
  g.nodes.foldl
    (fun acc (p : Nat × GNode) =>
      if p.2.isHandoff then
        match g.successors p.1 with
        | (succEdge, se) :: _ =>
          if alookup crossers succEdge = some .Tick then acc
          else
            match g.predecessors p.1 with
            | (_, pe) :: _ =>
              let predSg := (alookup g.nodeSubgraph pe.src).getD 0
              let succSg := (alookup g.nodeSubgraph se.dst).getD 0
              let negs' := if alookup crossers succEdge = some .Stratum
                then insertPair acc.2.2 (predSg, succSg) else acc.2.2
              (apush acc.1 succSg predSg, apush acc.2.1 predSg succSg, negs')
            | [] => acc
        | [] => acc
      else acc)
    ([], [], [])

/-- Kosaraju first phase: DFS over successors, postorder-push onto the
stack (`graph_algorithms::scc_kosaraju`, forward visit). -/
def sccVisit (succs : Nat → List Nat) : Nat → List Nat × List Nat → Nat → List Nat × List Nat
  | 0, st, _ => st
  | fuel + 1, (seen, stack), u =>
    if u ∈ seen then (seen, stack)
    else
      let st := (succs u).foldl (fun st' v => sccVisit succs fuel st' v) (u :: seen, stack)
      (st.1, st.2 ++ [u])

/-- Kosaraju second phase: assign components walking predecessors. -/
def sccAssign (preds : Nat → List Nat) : Nat → List (Nat × Nat) → Nat → Nat → List (Nat × Nat)
  | 0, comps, _, _ => comps
  | fuel + 1, comps, u, root =>
    match alookup comps u with
    | some _ => comps
    | none => (preds u).foldl (fun c v => sccAssign preds fuel c v root) (ainsert comps u root)

/-- Strongly connected components of the subgraph graph
(`graph_algorithms::scc_kosaraju`): map from subgraph id to its component
representative. -/
def sccKosaraju (ids : List Nat) (preds succs : Nat → List Nat) : List (Nat × Nat) :=
  let fuel := ids.length + 1
  let stack := (ids.foldl (fun st u => sccVisit succs fuel st u) ([], [])).2
  stack.reverse.foldl (fun comps u => sccAssign preds fuel comps u u) []

/-- The stratum-assignment loop of `find_subgraph_strata`: walk the
topological order; each subgraph gets the maximum over its predecessors
that already carry a stratum of that stratum plus one for a negative
connection, with `0` when no such predecessor exists
(`.filter_map(...).max().unwrap_or(0)`). -/
def strataFold (predsOf : Nat → List Nat) (negs : List (Nat × Nat)) :
    List Nat → List (Nat × Nat) → List (Nat × Nat)
  | [], m => m
  | sg :: rest, m =>
    let s := (listMax ((predsOf sg).filterMap
      (fun p => (alookup m p).map
        (fun st => st + (if (p, sg) ∈ negs then 1 else 0))))).getD 0
    strataFold predsOf negs rest (ainsert m sg s)

/-- Modelled from the spec: the catalogue entry of the injected
`identity()` operator (Phase E.4); `identity` is a plain unary operator,
not an external input and with no input delay.  (Its catalogue source,
`ops/identity.rs`, is not part of the sources under verification.) -/
def identityProps : OpProps :=
  { isExternalInput := false
    inputDelay := fun _ => none }

/-- Re-process one barrier crosser (the body of the second loop of
`find_subgraph_strata`): a `Tick` crosser going forward in stratum gets an
injected `identity()` operator plus a fresh handoff and a fresh singleton
subgraph at `extraStratum`; a `Stratum` crosser landing on the same or an
earlier stratum yields the negative-cycle diagnostic at the destination
port's span. -/
def processCrosserCore (extraStratum : Nat) (g : PGraph) (eid : Nat) (dt : DelayType)
    (e : GEdge) (dstIdx : PortIdx) : Except Diagnostic PGraph :=
  let hoff := e.src
  let src := match g.predecessors hoff with
    | (_, pe) :: _ => pe.src
    | [] => hoff
  let srcSg := (alookup g.nodeSubgraph src).getD 0
  let dstSg := (alookup g.nodeSubgraph e.dst).getD 0
  let srcStratum := g.stratumOf srcSg
  let dstStratum := g.stratumOf dstSg
  match dt with
  | .Tick =>
    if optLE srcStratum dstStratum then
      let r1 := insertIntermediateNode g eid (.operator identityProps "identity()")
      let r2 := insertIntermediateNode r1.1 r1.2.2 .handoff
      let g2 := r2.1
      let newSubgraphId := g2.nextSubgraph
      .ok { g2 with
        subgraphNodes := ainsert g2.subgraphNodes newSubgraphId [r1.2.1]
        nextSubgraph := g2.nextSubgraph + 1
        nodeSubgraph := ainsert g2.nodeSubgraph r1.2.1 newSubgraphId
        subgraphStratum := ainsert g2.subgraphStratum newSubgraphId extraStratum }
    else .ok g
  | .Stratum =>
    if optLE dstStratum srcStratum then
      .error ⟨dstIdx.spanOf, .error,
        "Negative edge creates a negative cycle which must be broken with a `next_tick()` operator."⟩
    else .ok g

/-- Dispatch on the crosser edge's presence (`self.partitioned_graph.edge`
lookups at the top of the loop body). -/
def processCrosser (extraStratum : Nat) (g : PGraph) (eid : Nat) (dt : DelayType) :
    Except Diagnostic PGraph :=
  match alookup g.edges eid, alookup g.ports eid with
  | some e, some (_, dstIdx) => processCrosserCore extraStratum g eid dt e dstIdx
  | _, _ => .ok g

/-- Fold `processCrosser` over the barrier crossers; an error stops the
loop, keeping the mutations made so far. -/
def reprocessFold (extraStratum : Nat) :
    PGraph → List (Nat × DelayType) → PGraph × Option Diagnostic
  | g, [] => (g, none)
  | g, (eid, dt) :: rest =>
    match processCrosser extraStratum g eid dt with
    | .ok g' => reprocessFold extraStratum g' rest
    | .error d => (g, some d)

/-- `find_subgraph_strata`: build the subgraph graph ignoring `Tick`
crossers, condense SCCs, topologically sort, assign strata, then
re-process the barrier crossers with `extra_stratum = max_stratum + 1`.
Returns the updated builder and the diagnostic, if any. -/
def findSubgraphStrata (b : Builder) : Builder × Option Diagnostic :=
  let sgg := subgraphGraph b.pg b.crossers
  let preds := sgg.1
  let succs := sgg.2.1
  let negs := sgg.2.2
  let sgIds := b.pg.subgraphNodes.map (·.1)
  let scc := sccKosaraju sgIds
    (fun v => (alookup preds v).getD []) (fun u => (alookup succs u).getD [])
  let condensed := preds.foldl
    (fun acc (p : Nat × List Nat) =>
      p.2.foldl
        (fun a v => apush a ((alookup scc p.1).getD p.1) ((alookup scc v).getD v)) acc)
    []
  let order := topoSort sgIds (fun v => (alookup condensed v).getD []) (sgIds.length + 1)
  let strata := strataFold (fun sg => (alookup preds sg).getD []) negs order []
  let pg1 := { b.pg with subgraphStratum := strata }
  let extraStratum := pg1.maxStratum.getD 0 + 1
  let r := reprocessFold extraStratum pg1 b.crossers
  ({ b with pg := r.1 }, r.2)

/-! ## Phase F: external-input isolation (`separate_external_inputs`) -/

/-- The operator nodes flagged `is_external_input` whose current subgraph
stratum is nonzero (the filtered collection at the top of
`separate_external_inputs`). -/
def externalNonzeroNodes (g : PGraph) : List Nat :=
  (g.nodes.filterMap
    (fun p =>
      match p.2 with
      | .operator props _ => if props.isExternalInput then some p.1 else none
      | .handoff => none)).filter
    (fun nid =>
      ((alookup g.subgraphStratum ((alookup g.nodeSubgraph nid).getD 0)).getD 0) ≠ 0)

/-- The per-node body of `separate_external_inputs`: remove the node from
its old subgraph, give it a fresh singleton subgraph at stratum `0`, and
insert a handoff on each of its outgoing edges. -/
def separateOne (g : PGraph) (nodeId : Nat) : PGraph :=
  let oldSg := (alookup g.nodeSubgraph nodeId).getD 0
  let oldMembers := (alookup g.subgraphNodes oldSg).getD []
  let g1 := { g with subgraphNodes := ainsert g.subgraphNodes oldSg (oldMembers.erase nodeId) }
  let newSg := g1.nextSubgraph
  let g2 := { g1 with
    subgraphNodes := ainsert g1.subgraphNodes newSg [nodeId]
    nextSubgraph := g1.nextSubgraph + 1
    nodeSubgraph := ainsert g1.nodeSubgraph nodeId newSg
    subgraphStratum := ainsert g1.subgraphStratum newSg 0 }
  ((g2.successors nodeId).map (·.1)).foldl
    (fun gg eid => (insertIntermediateNode gg eid .handoff).1) g2

/-- `separate_external_inputs`: apply `separateOne` to every external-input
operator not currently in a stratum-0 subgraph. -/
def separateExternalInputs (g : PGraph) : PGraph :=
  (externalNonzeroNodes g).foldl separateOne g

/-! ## Phase G: handoff bookkeeping (`helper_find_subgraph_handoffs`) -/

/-- The per-edge step of `helper_find_subgraph_handoffs`: an
`operator -> handoff` edge records the handoff as sent by the operator's
subgraph, a `handoff -> operator` edge records it as received by the
operator's subgraph; `handoff -> handoff` is an internal-error
diagnostic. -/
def handoffStep (g : PGraph)
    (acc : List (Nat × List Nat) × List (Nat × List Nat) × List Diagnostic)
    (p : Nat × GEdge) :
    List (Nat × List Nat) × List (Nat × List Nat) × List Diagnostic :=
  match alookup g.nodes p.2.src, alookup g.nodes p.2.dst with
  | some (.operator _ _), some (.operator _ _) => acc
  | some (.operator _ _), some .handoff =>
    (acc.1, apush acc.2.1 ((alookup g.nodeSubgraph p.2.src).getD 0) p.2.dst, acc.2.2)
  | some .handoff, some (.operator _ _) =>
    (apush acc.1 ((alookup g.nodeSubgraph p.2.dst).getD 0) p.2.src, acc.2.1, acc.2.2)
  | some .handoff, some .handoff =>
    (acc.1, acc.2.1, acc.2.2 ++ [⟨0, .error, "Internal Error: Consecutive handoffs"⟩])
  | _, _ => acc

/-- `helper_find_subgraph_handoffs`: maps (keyed by the existing subgraph
ids) from subgraph to received and sent handoffs, built by walking all
edges.  The field-assigned values are the ones installed in the output
graph. -/
def findSubgraphHandoffs (g : PGraph) :
    List (Nat × List Nat) × List (Nat × List Nat) × List Diagnostic :=
  let init : List (Nat × List Nat) := g.subgraphNodes.map (fun p => (p.1, []))
  g.edges.foldl (handoffStep g) (init, init, [])

/-- The internal-handoff computation at the end of `try_from`: a handoff
whose (last recorded) inbound edge's source subgraph equals its outbound
edge's destination subgraph is internal to that subgraph. -/
def findInternalHandoffs (g : PGraph) : List (Nat × List Nat) :=
  let destMap := g.edges.foldl (fun acc (p : Nat × GEdge) => ainsert acc p.2.dst p.2) []
  g.edges.foldl
    (fun acc (p : Nat × GEdge) =>
      match alookup g.nodes p.2.src with
      | some .handoff =>
        match alookup destMap p.2.src with
        | some inbound =>
          match alookup g.nodeSubgraph inbound.src, alookup g.nodeSubgraph p.2.dst with
          | some inboundSrcSg, some dstSg =>
            if inboundSrcSg = dstSg then apush acc inboundSrcSg p.2.src else acc
          | _, _ => acc
        | none => acc
      | _ => acc)
    []

/-- Phases A–E: coloring, coalescing, handoff insertion, subgraph
collection and stratum assignment (with the strata diagnostic, if any). -/
def strataPhase (g : PGraph) : Builder × Option Diagnostic :=
  findSubgraphStrata (makeSubgraphs (Builder.fromFlat g))

/-- The graph after Phase F (`separate_external_inputs`). -/
def phaseFGraph (g : PGraph) : PGraph :=
  separateExternalInputs (strataPhase g).1.pg

/-- The first component of the conversion's result: the Phase F graph with
the Phase G handoff bookkeeping fields installed. -/
def tryFromGraph (g : PGraph) : PGraph :=
  let pg3 := phaseFGraph g
  let hs := findSubgraphHandoffs pg3
  { pg3 with
    subgraphRecvHandoffs := hs.1
    subgraphSendHandoffs := hs.2.1
    subgraphInternalHandoffs := findInternalHandoffs pg3 }

/-- The diagnostics emitted during the conversion. -/
def tryFromDiags (g : PGraph) : List Diagnostic :=
  (match (strataPhase g).2 with
    | some d => [d]
    | none => []) ++ (findSubgraphHandoffs (phaseFGraph g)).2.2

/-- `TryFrom<FlatGraph> for PartitionedGraph`: the whole lowering.  A
diagnostic from `find_subgraph_strata` is emitted (collected in the
returned list) and the conversion continues; the result is always `ok`. -/
def tryFrom (g : PGraph) : Except Diagnostic (PGraph × List Diagnostic) :=
  .ok (tryFromGraph g, tryFromDiags g)

/-! ## Association-list lemmas -/

theorem alookup_ainsert_self {α : Type} (m : List (Nat × α)) (k : Nat) (v : α) :
    alookup (ainsert m k v) k = some v := by
  induction m with
  | nil => simp [ainsert, alookup]
  | cons hd tl ih =>
    obtain ⟨k', v'⟩ := hd
    unfold ainsert
    by_cases hlt : k < k'
    · simp [hlt, alookup]
    · by_cases heq : k' = k
      · simp [hlt, heq, alookup]
      · simp only [if_neg hlt, if_neg heq, alookup]
        exact ih

theorem alookup_ainsert_ne {α : Type} (m : List (Nat × α)) (k k' : Nat) (v : α)
    (h : k' ≠ k) : alookup (ainsert m k v) k' = alookup m k' := by
  have hk : k ≠ k' := Ne.symm h
  induction m with
  | nil => simp [ainsert, alookup, hk]
  | cons hd tl ih =>
    obtain ⟨k₀, v₀⟩ := hd
    unfold ainsert
    by_cases hlt : k < k₀
    · simp [alookup, hk, hlt]
    · by_cases heq : k₀ = k
      · subst heq
        simp [alookup, hk]
      · simp only [if_neg hlt, if_neg heq]
        by_cases h0 : k₀ = k'
        · simp [alookup, h0]
        · simp [alookup, h0, ih]

theorem mem_ainsert {α : Type} (m : List (Nat × α)) (k a : Nat) (v b : α)
    (h : (a, b) ∈ ainsert m k v) : (a = k ∧ b = v) ∨ (a, b) ∈ m := by
  induction m with
  | nil =>
    simp [ainsert] at h
    exact Or.inl ⟨h.1, h.2⟩
  | cons hd tl ih =>
    obtain ⟨k₀, v₀⟩ := hd
    unfold ainsert at h
    by_cases hlt : k < k₀
    · rw [if_pos hlt] at h
      rcases List.mem_cons.mp h with h1 | h1
      · exact Or.inl ⟨congrArg Prod.fst h1, congrArg Prod.snd h1⟩
      · exact Or.inr h1
    · by_cases heq : k₀ = k
      · rw [if_neg hlt, if_pos heq] at h
        rcases List.mem_cons.mp h with h1 | h1
        · exact Or.inl ⟨congrArg Prod.fst h1, congrArg Prod.snd h1⟩
        · exact Or.inr (List.mem_cons_of_mem _ h1)
      · rw [if_neg hlt, if_neg heq] at h
        rcases List.mem_cons.mp h with h1 | h1
        · exact Or.inr (List.mem_cons.mpr (Or.inl h1))
        · rcases ih h1 with h2 | h2
          · exact Or.inl h2
          · exact Or.inr (List.mem_cons_of_mem _ h2)

/-! ## Claim C6: initial node colors -/

/-- **C6.** The initial color of a node, from its kind and degrees: `Hoff`
for a handoff; `Comp` for an operator with in-degree > 1 and
out-degree > 1; `Pull` for in-degree > 1 and out-degree ≤ 1; `Push` for
in-degree ≤ 1 and out-degree > 1; `Pull` when in-degree is 0 (and no
earlier rule applies); `Push` when out-degree is 0 (and no earlier rule
applies); undetermined (`none`) exactly when in-degree = out-degree = 1. -/
theorem claim_C6_node_color (innDegree outDegree : Nat) :
    nodeColor true innDegree outDegree = some .Hoff
    ∧ (1 < innDegree → 1 < outDegree → nodeColor false innDegree outDegree = some .Comp)
    ∧ (1 < innDegree → outDegree ≤ 1 → nodeColor false innDegree outDegree = some .Pull)
    ∧ (innDegree ≤ 1 → 1 < outDegree → nodeColor false innDegree outDegree = some .Push)
    ∧ (innDegree = 0 → outDegree ≤ 1 → nodeColor false innDegree outDegree = some .Pull)
    ∧ (outDegree = 0 → innDegree = 1 → nodeColor false innDegree outDegree = some .Push)
    ∧ (nodeColor false innDegree outDegree = none ↔ innDegree = 1 ∧ outDegree = 1) := by
  unfold nodeColor
  refine ⟨by simp, ?_, ?_, ?_, ?_, ?_, ?_⟩ <;>
    · simp only [Bool.false_eq_true, if_false]
      split_ifs <;> simp_all <;> omega

/-- Witness for C6 at concrete degrees: in-degree 2, out-degree 1 gives
`Pull`. -/
theorem claim_C6_witness :
    nodeColor false 2 1 = some Color.Pull :=
  (claim_C6_node_color 2 1).2.2.1 (by decide) (by decide)

/-! ## Claim C5: the color-compatibility table -/

/-- The color map of a two-node graph with the given endpoint colors
(`none` = undetermined endpoints get no entry). -/
def mkColorMap : Option Color → Option Color → List (Nat × Color)
  | some a, some b => [(0, a), (1, b)]
  | some a, none => [(0, a)]
  | none, some b => [(1, b)]
  | none, none => []

/-- The merge verdict of the color-compatibility table as the code
implements it (amended spec): `Hoff` rejects every *determined* neighbor
but an undetermined (`none`) destination next to a `Hoff` source is
inferred to `Pull` and merged; two undetermined endpoints never merge. -/
def tableVerdict : Option Color → Option Color → Bool
  | none, none => false
  | none, some _ => true
  | some .Pull, none => true
  | some .Comp, none => true
  | some .Push, none => true
  | some .Hoff, none => true
  | some .Pull, some .Pull => true
  | some .Pull, some .Comp => true
  | some .Pull, some .Push => true
  | some .Pull, some .Hoff => false
  | some .Comp, some .Push => true
  | some .Comp, some _ => false
  | some .Push, some .Push => true
  | some .Push, some _ => false
  | some .Hoff, some _ => false

/-- The color inferred into an undetermined source from its destination. -/
def tableSrcColor : Option Color → Option Color → Option Color
  | none, some .Pull => some .Pull
  | none, some .Comp => some .Pull
  | none, some .Push => some .Push
  | none, some .Hoff => some .Push
  | a, _ => a

/-- The color inferred into an undetermined destination from its source. -/
def tableDstColor : Option Color → Option Color → Option Color
  | some .Pull, none => some .Pull
  | some .Hoff, none => some .Pull
  | some .Comp, none => some .Push
  | some .Push, none => some .Push
  | _, b => b

/-- **C5 (counterexample).** The claim says an endpoint colored `Hoff`
never merges with any neighbor, including an undetermined (`None`)
neighbor; but `can_connect_colorize` on a `Hoff` source with an
undetermined destination infers `Pull` into the destination and permits
the merge. -/
theorem claim_C5_counterexample :
    canConnectColorize [(0, Color.Hoff)] 0 1
      = ([(0, Color.Hoff), (1, Color.Pull)], true) := by
  rfl

/-- **C5 (amended).** `can_connect_colorize` realizes the spec's
color-compatibility table except in the `(Hoff, None)` cell: there it
infers `Pull` into the undetermined destination and permits the merge.
`Hoff` never merges with a *determined* neighbor, and an edge with two
undetermined endpoints is never merged. -/
theorem claim_C5_amended (a b : Option Color) :
    canConnectColorize (mkColorMap a b) 0 1
      = (mkColorMap (tableSrcColor a b) (tableDstColor a b), tableVerdict a b) := by
  rcases a with _ | c1 <;> rcases b with _ | c2
  · rfl
  · cases c2 <;> rfl
  · cases c1 <;> rfl
  · cases c1 <;> cases c2 <;> rfl

/-! ## Claim C10: the `join` catalogue entry -/

/-- **C10.** The catalogue entry for `join` declares exactly two input
ports (hard and soft input arity `2..=2`), fixed-named `0` and `1`,
exactly one output port, `is_external_input = false`, and an input delay
function returning `None` on every port — hence no edge into a `join`
node is ever recorded as a barrier crosser. -/
theorem claim_C10_join :
    JOIN.hardRangeInn = ⟨2, 2⟩ ∧ JOIN.softRangeInn = ⟨2, 2⟩
    ∧ JOIN.hardRangeOut = ⟨1, 1⟩ ∧ JOIN.softRangeOut = ⟨1, 1⟩
    ∧ JOIN.portsInn = some (.fixed [0, 1]) ∧ JOIN.portsOut = none
    ∧ JOIN.isExternalInput = false
    ∧ (∀ p : PortIdx, JOIN.inputDelaytypeFn p = none)
    ∧ (∀ (g : PGraph) (eid : Nat) (dt : DelayType),
        (∀ e' : GEdge, (eid, e') ∈ g.edges →
          ∃ tag : String, alookup g.nodes e'.dst = some (.operator joinProps tag)) →
        (eid, dt) ∉ findBarrierCrossers g) := by
  refine ⟨rfl, rfl, rfl, rfl, rfl, rfl, rfl, fun _ => rfl, ?_⟩
  intro g eid dt hjoin
  have hnone : ∀ e' : GEdge, (eid, e') ∈ g.edges → edgeBarrier g eid e' = none := by
    intro e' he'
    obtain ⟨tag, htag⟩ := hjoin e' he'
    unfold edgeBarrier
    rw [htag]
    cases alookup g.ports eid with
    | none => rfl
    | some pr =>
      obtain ⟨pa, pb⟩ := pr
      rfl
  unfold findBarrierCrossers
  suffices hgen : ∀ (l : List (Nat × GEdge)) (acc : List (Nat × DelayType)),
      (∀ e' : GEdge, (eid, e') ∈ l → edgeBarrier g eid e' = none) →
      (∀ d : DelayType, (eid, d) ∉ acc) →
      (eid, dt) ∉ l.foldl
        (fun acc (p : Nat × GEdge) =>
          match edgeBarrier g p.1 p.2 with
          | some dtt => ainsert acc p.1 dtt
          | none => acc) acc by
    exact hgen g.edges [] hnone (by simp)
  intro l
  induction l with
  | nil =>
    intro acc _ hacc
    exact hacc dt
  | cons hd tl ih =>
    intro acc hl hacc
    simp only [List.foldl_cons]
    refine ih _ (fun e' he' => hl e' (List.mem_cons_of_mem _ he')) ?_
    intro d
    by_cases hk : hd.1 = eid
    · have h0 : edgeBarrier g hd.1 hd.2 = none := by
        rw [hk]
        exact hl hd.2 (by rw [← hk]; simp)
      simp only [h0]
      exact hacc d
    · cases hb : edgeBarrier g hd.1 hd.2 with
      | none =>
        simp only [hb]
        exact hacc d
      | some dtt =>
        simp only [hb]
        intro hmem
        rcases mem_ainsert _ _ _ _ _ hmem with ⟨h1, _⟩ | h1
        · exact hk h1.symm
        · exact hacc d h1

/-- Concrete graph with a `join` operator as destination of edge `0`. -/
def gJoin : PGraph where
  nodes := [(0, .operator ⟨false, fun _ => none⟩ "source_iter(v)"), (1, .operator joinProps "join()")]
  edges := [(0, ⟨0, 1⟩)]
  ports := [(0, (.elided 0, .int 0 0))]
  nextNode := 2
  nextEdge := 1
  nodeSubgraph := []
  subgraphNodes := []
  nextSubgraph := 0
  subgraphStratum := []
  subgraphRecvHandoffs := []
  subgraphSendHandoffs := []
  subgraphInternalHandoffs := []
  nodeColor := []

/-- Witness for C10: the edge into the `join` node of `gJoin` is not a
barrier crosser. -/
theorem claim_C10_witness : (0, DelayType.Stratum) ∉ findBarrierCrossers gJoin :=
  claim_C10_join.2.2.2.2.2.2.2.2 gJoin 0 .Stratum
    (by
      intro e' he'
      simp only [gJoin, List.mem_singleton, Prod.mk.injEq, true_and] at he'
      subst he'
      exact ⟨"join()", rfl⟩)

theorem alookup_aremove_ne {α : Type} (m : List (Nat × α)) (k k' : Nat)
    (h : k' ≠ k) : alookup (aremove m k) k' = alookup m k' := by
  induction m with
  | nil => rfl
  | cons hd tl ih =>
    obtain ⟨k₀, v₀⟩ := hd
    unfold aremove
    by_cases heq : k₀ = k
    · subst heq
      simp [alookup, Ne.symm h]
    · simp [alookup, heq, ih]

theorem processCrosser_eq_core (es : Nat) (g : PGraph) (eid : Nat) (dt : DelayType)
    (e : GEdge) (srcPort dstPort : PortIdx)
    (hedge : alookup g.edges eid = some e)
    (hports : alookup g.ports eid = some (srcPort, dstPort)) :
    processCrosser es g eid dt = processCrosserCore es g eid dt e dstPort := by
  unfold processCrosser
  rw [hedge, hports]

theorem insertIntermediateNode_eq (g : PGraph) (eid : Nat) (node : GNode)
    (e : GEdge) (srcIdx dstIdx : PortIdx)
    (hedge : alookup g.edges eid = some e)
    (hports : alookup g.ports eid = some (srcIdx, dstIdx)) :
    insertIntermediateNode g eid node
      = ({ g with
          nodes := ainsert g.nodes g.nextNode node
          nextNode := g.nextNode + 1
          edges := ainsert (ainsert (aremove g.edges eid) g.nextEdge ⟨e.src, g.nextNode⟩)
            (g.nextEdge + 1) ⟨g.nextNode, e.dst⟩
          nextEdge := g.nextEdge + 2
          ports := ainsert (ainsert (aremove g.ports eid) g.nextEdge (srcIdx, .elided 0))
            (g.nextEdge + 1) (.elided 0, dstIdx) }, g.nextNode, g.nextEdge + 1) := by
  unfold insertIntermediateNode
  rw [hedge, hports]

/-! ## Claim C3: Tick crossers are buffered to the next tick -/

/-- **C3.** Re-processing a `Tick` barrier-crossing handoff edge whose
source subgraph's stratum is ≤ its destination subgraph's stratum (with
`extra_stratum = max_stratum + 1` computed before the loop) inserts an
`identity()` operator between the existing handoff and the destination,
followed by a fresh handoff, and places the identity operator in a new
singleton subgraph at stratum `max_stratum + 1`; the re-processing loop
then continues on the mutated graph. -/
theorem claim_C3_tick_delay
    (g : PGraph) (eid : Nat) (e : GEdge) (srcPort dstPort : PortIdx)
    (peid : Nat) (pe : GEdge) (ptl : List (Nat × GEdge))
    (rest : List (Nat × DelayType))
    (hedge : alookup g.edges eid = some e)
    (hports : alookup g.ports eid = some (srcPort, dstPort))
    (hpred : g.predecessors e.src = (peid, pe) :: ptl)
    (hle : optLE (g.stratumOf ((alookup g.nodeSubgraph pe.src).getD 0))
        (g.stratumOf ((alookup g.nodeSubgraph e.dst).getD 0)) = true) :
    ∃ rg : PGraph,
      processCrosser (g.maxStratum.getD 0 + 1) g eid .Tick = .ok rg
      ∧ reprocessFold (g.maxStratum.getD 0 + 1) g ((eid, .Tick) :: rest)
          = reprocessFold (g.maxStratum.getD 0 + 1) rg rest
      ∧ alookup rg.nodes g.nextNode = some (.operator identityProps "identity()")
      ∧ alookup rg.nodes (g.nextNode + 1) = some .handoff
      ∧ alookup rg.edges g.nextEdge = some ⟨e.src, g.nextNode⟩
      ∧ alookup rg.edges (g.nextEdge + 2) = some ⟨g.nextNode, g.nextNode + 1⟩
      ∧ alookup rg.edges (g.nextEdge + 3) = some ⟨g.nextNode + 1, e.dst⟩
      ∧ alookup rg.nodeSubgraph g.nextNode = some g.nextSubgraph
      ∧ alookup rg.subgraphNodes g.nextSubgraph = some [g.nextNode]
      ∧ alookup rg.subgraphStratum g.nextSubgraph = some (g.maxStratum.getD 0 + 1) := by
  have hins1 := insertIntermediateNode_eq g eid (.operator identityProps "identity()")
    e srcPort dstPort hedge hports
  have hedge2 : alookup (ainsert (ainsert (aremove g.edges eid) g.nextEdge ⟨e.src, g.nextNode⟩)
      (g.nextEdge + 1) ⟨g.nextNode, e.dst⟩) (g.nextEdge + 1) = some ⟨g.nextNode, e.dst⟩ :=
    alookup_ainsert_self _ _ _
  have hports2 : alookup (ainsert (ainsert (aremove g.ports eid) g.nextEdge (srcPort, .elided 0))
      (g.nextEdge + 1) (.elided 0, dstPort)) (g.nextEdge + 1) = some (.elided 0, dstPort) :=
    alookup_ainsert_self _ _ _
  have hins2 := insertIntermediateNode_eq
    ({ g with
      nodes := ainsert g.nodes g.nextNode (.operator identityProps "identity()")
      nextNode := g.nextNode + 1
      edges := ainsert (ainsert (aremove g.edges eid) g.nextEdge ⟨e.src, g.nextNode⟩)
        (g.nextEdge + 1) ⟨g.nextNode, e.dst⟩
      nextEdge := g.nextEdge + 2
      ports := ainsert (ainsert (aremove g.ports eid) g.nextEdge (srcPort, .elided 0))
        (g.nextEdge + 1) (.elided 0, dstPort) })
    (g.nextEdge + 1) .handoff ⟨g.nextNode, e.dst⟩ (.elided 0) dstPort hedge2 hports2
  have hrun : processCrosser (g.maxStratum.getD 0 + 1) g eid .Tick
      = .ok { g with
        nodes := ainsert (ainsert g.nodes g.nextNode (.operator identityProps "identity()"))
          (g.nextNode + 1) .handoff
        nextNode := g.nextNode + 2
        edges := ainsert (ainsert (aremove (ainsert (ainsert (aremove g.edges eid)
              g.nextEdge ⟨e.src, g.nextNode⟩) (g.nextEdge + 1) ⟨g.nextNode, e.dst⟩)
            (g.nextEdge + 1)) (g.nextEdge + 2) ⟨g.nextNode, g.nextNode + 1⟩)
          (g.nextEdge + 3) ⟨g.nextNode + 1, e.dst⟩
        nextEdge := g.nextEdge + 4
        ports := ainsert (ainsert (aremove (ainsert (ainsert (aremove g.ports eid)
              g.nextEdge (srcPort, .elided 0)) (g.nextEdge + 1) (.elided 0, dstPort))
            (g.nextEdge + 1)) (g.nextEdge + 2) (.elided 0, .elided 0))
          (g.nextEdge + 3) (.elided 0, dstPort)
        subgraphNodes := ainsert g.subgraphNodes g.nextSubgraph [g.nextNode]
        nextSubgraph := g.nextSubgraph + 1
        nodeSubgraph := ainsert g.nodeSubgraph g.nextNode g.nextSubgraph
        subgraphStratum := ainsert g.subgraphStratum g.nextSubgraph
          (g.maxStratum.getD 0 + 1) } := by
    rw [processCrosser_eq_core _ g eid .Tick e srcPort dstPort hedge hports]
    simp only [processCrosserCore, hpred, hle, hins1, hins2, if_true]
  refine ⟨_, hrun, ?_, ?_, ?_, ?_, ?_, ?_, ?_, ?_, ?_⟩
  · simp only [reprocessFold, hrun]
  · rw [alookup_ainsert_ne _ _ _ _ (by omega), alookup_ainsert_self]
  · rw [alookup_ainsert_self]
  · rw [alookup_ainsert_ne _ _ _ _ (by omega), alookup_ainsert_ne _ _ _ _ (by omega),
      alookup_aremove_ne _ _ _ (by omega), alookup_ainsert_ne _ _ _ _ (by omega),
      alookup_ainsert_self]
  · rw [alookup_ainsert_ne _ _ _ _ (by omega), alookup_ainsert_self]
  · rw [alookup_ainsert_self]
  · rw [alookup_ainsert_self]
  · rw [alookup_ainsert_self]
  · rw [alookup_ainsert_self]

/-- A small mid-pipeline state with a `Tick` crosser: operator `0` feeds
handoff `1` which feeds operator `2`; both operators sit in stratum-0
subgraphs, so the tick edge goes forward in stratum. -/
def gC3 : PGraph where
  nodes := [(0, .operator ⟨false, fun _ => none⟩ "source_iter(v)"), (1, .handoff),
    (2, .operator ⟨false, fun _ => some .Tick⟩ "defer_tick()")]
  edges := [(0, ⟨0, 1⟩), (1, ⟨1, 2⟩)]
  ports := [(0, (.elided 0, .elided 0)), (1, (.elided 0, .elided 0))]
  nextNode := 3
  nextEdge := 2
  nodeSubgraph := [(0, 0), (2, 1)]
  subgraphNodes := [(0, [0]), (1, [2])]
  nextSubgraph := 2
  subgraphStratum := [(0, 0), (1, 0)]
  subgraphRecvHandoffs := []
  subgraphSendHandoffs := []
  subgraphInternalHandoffs := []
  nodeColor := []

/-- Witness for C3 on `gC3`: the tick edge `1` gets an injected
`identity()` in a fresh singleton subgraph at stratum `max_stratum + 1`. -/
theorem claim_C3_witness :
    ∃ rg : PGraph,
      processCrosser (gC3.maxStratum.getD 0 + 1) gC3 1 .Tick = .ok rg
      ∧ reprocessFold (gC3.maxStratum.getD 0 + 1) gC3 [(1, .Tick)]
          = reprocessFold (gC3.maxStratum.getD 0 + 1) rg []
      ∧ alookup rg.nodes gC3.nextNode = some (.operator identityProps "identity()")
      ∧ alookup rg.nodes (gC3.nextNode + 1) = some .handoff
      ∧ alookup rg.edges gC3.nextEdge = some ⟨1, gC3.nextNode⟩
      ∧ alookup rg.edges (gC3.nextEdge + 2) = some ⟨gC3.nextNode, gC3.nextNode + 1⟩
      ∧ alookup rg.edges (gC3.nextEdge + 3) = some ⟨gC3.nextNode + 1, 2⟩
      ∧ alookup rg.nodeSubgraph gC3.nextNode = some gC3.nextSubgraph
      ∧ alookup rg.subgraphNodes gC3.nextSubgraph = some [gC3.nextNode]
      ∧ alookup rg.subgraphStratum gC3.nextSubgraph = some (gC3.maxStratum.getD 0 + 1) :=
  claim_C3_tick_delay gC3 1 ⟨1, 2⟩ (.elided 0) (.elided 0) 0 ⟨0, 1⟩ [] []
    rfl rfl rfl rfl

/-! ## Claim C1: Stratum crossers into the same or earlier stratum -/

/-- Modelled from the spec: catalogue properties of an operator all of
whose input ports have delay type `Stratum` (e.g. the `neg` port of
`difference`; the per-operator catalogue files are not among the sources
under verification). -/
def stratumProps : OpProps :=
  { isExternalInput := false
    inputDelay := fun _ => some .Stratum }

/-- Catalogue properties of a plain unary operator (no delays, not an
external input), like `map`. -/
def plainProps : OpProps :=
  { isExternalInput := false
    inputDelay := fun _ => none }

/-- A two-operator cycle: `0 -> 1` (plain) and `1 -> 0` where node `0`'s
input port (`neg`, span 7) has delay type `Stratum` — an unbroken
negative cycle. -/
def gC1 : PGraph where
  nodes := [(0, .operator stratumProps "difference -- neg"), (1, .operator plainProps "map(f)")]
  edges := [(0, ⟨0, 1⟩), (1, ⟨1, 0⟩)]
  ports := [(0, (.elided 0, .elided 0)), (1, (.elided 0, .path "neg" 7))]
  nextNode := 2
  nextEdge := 2
  nodeSubgraph := []
  subgraphNodes := []
  nextSubgraph := 0
  subgraphStratum := []
  subgraphRecvHandoffs := []
  subgraphSendHandoffs := []
  subgraphInternalHandoffs := []
  nodeColor := []

/-- **C1 (counterexample).** On the unbroken negative cycle `gC1` the
lowering puts both subgraphs in stratum 0, so the `Stratum` edge `1`
(destination port span 7) lands on the same stratum: a diagnostic whose
message contains "negative cycle" is emitted at span 7 — but the
conversion still returns `Ok`; `TryFrom` never fails, refuting the claim
that compilation returns an error. -/
theorem claim_C1_counterexample :
    alookup (findBarrierCrossers gC1) 1 = some .Stratum
    ∧ alookup gC1.edges 1 = some ⟨1, 0⟩
    ∧ alookup (tryFromGraph gC1).nodeSubgraph 0 = some 0
    ∧ alookup (tryFromGraph gC1).nodeSubgraph 1 = some 1
    ∧ alookup (tryFromGraph gC1).subgraphStratum 0 = some 0
    ∧ alookup (tryFromGraph gC1).subgraphStratum 1 = some 0
    ∧ (tryFromDiags gC1).length = 1
    ∧ (∀ d ∈ tryFromDiags gC1, d.span = 7 ∧ "negative cycle".data <:+: d.message.data)
    ∧ tryFrom gC1 = .ok (tryFromGraph gC1, tryFromDiags gC1) :=
  ⟨by decide, by decide, by decide, by decide, by decide, by decide, by decide,
    by decide, rfl⟩

/-- **C1 (amended).** A `Stratum` barrier crosser whose destination
subgraph's stratum is less than or equal to its source subgraph's stratum
makes `find_subgraph_strata` produce a diagnostic at the destination
port's span whose message contains "negative cycle"; but `try_from` only
*emits* that diagnostic and still returns `Ok` — the conversion never
fails. -/
theorem claim_C1_amended :
    (∀ g : PGraph, ∃ (pgOut : PGraph) (diags : List Diagnostic),
      tryFrom g = .ok (pgOut, diags))
    ∧ (∀ (es : Nat) (g : PGraph) (eid : Nat) (e : GEdge) (srcPort dstPort : PortIdx)
        (peid : Nat) (pe : GEdge) (ptl : List (Nat × GEdge)),
        alookup g.edges eid = some e →
        alookup g.ports eid = some (srcPort, dstPort) →
        g.predecessors e.src = (peid, pe) :: ptl →
        optLE (g.stratumOf ((alookup g.nodeSubgraph e.dst).getD 0))
          (g.stratumOf ((alookup g.nodeSubgraph pe.src).getD 0)) = true →
        ∃ d : Diagnostic,
          processCrosser es g eid .Stratum = .error d
          ∧ d.span = dstPort.spanOf
          ∧ "negative cycle".data <:+: d.message.data) := by
  constructor
  · intro g
    exact ⟨tryFromGraph g, tryFromDiags g, rfl⟩
  · intro es g eid e srcPort dstPort peid pe ptl hedge hports hpred hcond
    rw [processCrosser_eq_core es g eid .Stratum e srcPort dstPort hedge hports]
    have hinf : "negative cycle".data <:+:
        ("Negative edge creates a negative cycle which must be broken with a `next_tick()` operator.").data := by
      decide
    refine ⟨⟨dstPort.spanOf, .error,
      "Negative edge creates a negative cycle which must be broken with a `next_tick()` operator."⟩,
      ?_, rfl, hinf⟩
    simp [processCrosserCore, hpred, hcond]

/-- A mid-pipeline state with a `Stratum` crosser landing on the same
stratum: handoff `1` forwards into operator `2` (port `neg`, span 7) and
both subgraphs are at stratum 0. -/
def gStratumStep : PGraph where
  nodes := [(0, .operator plainProps "map(f)"), (1, .handoff),
    (2, .operator stratumProps "difference -- neg")]
  edges := [(0, ⟨0, 1⟩), (1, ⟨1, 2⟩)]
  ports := [(0, (.elided 0, .elided 0)), (1, (.elided 0, .path "neg" 7))]
  nextNode := 3
  nextEdge := 2
  nodeSubgraph := [(0, 0), (2, 1)]
  subgraphNodes := [(0, [0]), (1, [2])]
  nextSubgraph := 2
  subgraphStratum := [(0, 0), (1, 0)]
  subgraphRecvHandoffs := []
  subgraphSendHandoffs := []
  subgraphInternalHandoffs := []
  nodeColor := []

/-- Witness for the amended C1 on `gStratumStep`: processing the `Stratum`
crosser yields the negative-cycle diagnostic at span 7. -/
theorem claim_C1_amended_witness :
    ∃ d : Diagnostic,
      processCrosser 1 gStratumStep 1 .Stratum = .error d
      ∧ d.span = PortIdx.spanOf (.path "neg" 7)
      ∧ "negative cycle".data <:+: d.message.data :=
  claim_C1_amended.2 1 gStratumStep 1 ⟨1, 2⟩ (.elided 0) (.path "neg" 7) 0 ⟨0, 1⟩ []
    rfl rfl rfl rfl

/-! ## Claim C2: the stratum-assignment formula -/

theorem strataFold_append (predsOf : Nat → List Nat) (negs : List (Nat × Nat))
    (l1 l2 : List Nat) (m : List (Nat × Nat)) :
    strataFold predsOf negs (l1 ++ l2) m
      = strataFold predsOf negs l2 (strataFold predsOf negs l1 m) := by
  induction l1 generalizing m with
  | nil => rfl
  | cons a rest ih =>
    simp only [List.cons_append, strataFold]
    exact ih _

theorem strataFold_notin (predsOf : Nat → List Nat) (negs : List (Nat × Nat))
    (l : List Nat) (m : List (Nat × Nat)) (sg : Nat) (h : sg ∉ l) :
    alookup (strataFold predsOf negs l m) sg = alookup m sg := by
  induction l generalizing m with
  | nil => rfl
  | cons a rest ih =>
    have ha : sg ≠ a := fun hh => h (hh ▸ List.mem_cons_self a rest)
    have hr : sg ∉ rest := fun hh => h (List.mem_cons_of_mem a hh)
    simp only [strataFold]
    rw [ih _ hr, alookup_ainsert_ne _ _ _ _ ha]

/-- **C2 (amended).** In the stratum-assignment loop, a subgraph `sg`
processed at its position in the (nodup) order is assigned the maximum,
over those of its predecessors *already carrying a stratum at that
point*, of the predecessor's stratum plus 1 for a negative connection
(`filter_map` drops predecessors without strata); no usable predecessor
gives 0.  Strata of subgraphs processed earlier are not changed by later
steps. -/
theorem claim_C2_amended (predsOf : Nat → List Nat) (negs : List (Nat × Nat))
    (pre post : List Nat) (sg : Nat) (m0 : List (Nat × Nat))
    (hnd : (pre ++ sg :: post).Nodup) :
    alookup (strataFold predsOf negs (pre ++ sg :: post) m0) sg
      = some ((listMax ((predsOf sg).filterMap (fun p =>
          (alookup (strataFold predsOf negs pre m0) p).map
            (fun st => st + (if (p, sg) ∈ negs then 1 else 0))))).getD 0)
    ∧ (∀ p : Nat, p ∈ pre →
        alookup (strataFold predsOf negs (pre ++ sg :: post) m0) p
          = alookup (strataFold predsOf negs pre m0) p)
    ∧ (predsOf sg = [] →
        alookup (strataFold predsOf negs (pre ++ sg :: post) m0) sg = some 0) := by
  rw [List.nodup_append] at hnd
  have hsg_pre : sg ∉ pre := fun hh =>
    hnd.2.2 hh (List.mem_cons_self sg post)
  have hsg_post : sg ∉ post := (List.nodup_cons.mp hnd.2.1).1
  have hmain : alookup (strataFold predsOf negs (pre ++ sg :: post) m0) sg
      = some ((listMax ((predsOf sg).filterMap (fun p =>
          (alookup (strataFold predsOf negs pre m0) p).map
            (fun st => st + (if (p, sg) ∈ negs then 1 else 0))))).getD 0) := by
    rw [strataFold_append]
    simp only [strataFold]
    rw [strataFold_notin _ _ _ _ _ hsg_post, alookup_ainsert_self]
  refine ⟨hmain, ?_, ?_⟩
  · intro p hp
    have hp1 : p ≠ sg := fun hh => hsg_pre (hh ▸ hp)
    have hp2 : p ∉ post := fun hh =>
      hnd.2.2 hp (List.mem_cons_of_mem sg hh)
    rw [strataFold_append]
    simp only [strataFold]
    rw [strataFold_notin _ _ _ _ _ hp2, alookup_ainsert_ne _ _ _ _ hp1]
  · intro hpe
    rw [hmain, hpe]
    rfl

/-- A two-operator cycle with the `Stratum` edge oriented `0 -> 1`: after
lowering, subgraph 0 has predecessor subgraph 1 at stratum 1, yet is
itself assigned stratum 0 — subgraph 1 was unassigned when subgraph 0 was
processed. -/
def gC2 : PGraph where
  nodes := [(0, .operator plainProps "map(f)"), (1, .operator stratumProps "difference -- neg")]
  edges := [(0, ⟨0, 1⟩), (1, ⟨1, 0⟩)]
  ports := [(0, (.elided 0, .path "neg" 9)), (1, (.elided 0, .elided 0))]
  nextNode := 2
  nextEdge := 2
  nodeSubgraph := []
  subgraphNodes := []
  nextSubgraph := 0
  subgraphStratum := []
  subgraphRecvHandoffs := []
  subgraphSendHandoffs := []
  subgraphInternalHandoffs := []
  nodeColor := []

/-- The builder for `gC2` after Phases A–D. -/
def bC2 : Builder := makeSubgraphs (Builder.fromFlat gC2)

/-- The subgraph graph (preds, succs, negative connections) of `gC2`. -/
def sggC2 : List (Nat × List Nat) × List (Nat × List Nat) × List (Nat × Nat) :=
  subgraphGraph bC2.pg bC2.crossers

/-- The strata assigned to `gC2`'s subgraphs by Phase E. -/
def strataC2 : List (Nat × Nat) :=
  (findSubgraphStrata bC2).1.pg.subgraphStratum

/-- **C2 (counterexample).** In `gC2`, subgraph 0 has the single
predecessor subgraph 1 (connection not negative) whose final stratum is 1,
so the claimed formula gives `max(1 + 0) = 1`; but subgraph 0 is assigned
stratum 0 — the loop skipped subgraph 1, which had no stratum yet when
subgraph 0 was processed. -/
theorem claim_C2_counterexample :
    alookup sggC2.1 0 = some [1]
    ∧ (1, 0) ∉ sggC2.2.2
    ∧ alookup strataC2 0 = some 0
    ∧ alookup strataC2 1 = some 1
    ∧ alookup strataC2 0
      ≠ some ((listMax ([1].filterMap (fun p =>
          (alookup strataC2 p).map
            (fun st => st + (if (p, (0 : Nat)) ∈ sggC2.2.2 then 1 else 0))))).getD 0) :=
  ⟨by decide, by decide, by decide, by decide, by decide⟩

/-- Predecessor function for the C2 witness: subgraph 1 has the single
predecessor 0. -/
def wPreds : Nat → List Nat := fun s => if s = 1 then [0] else []

/-- Witness for the amended C2 at a concrete order `[0, 1]` with a
negative connection `0 -> 1`. -/
theorem claim_C2_amended_witness :
    alookup (strataFold wPreds [(0, 1)] ([0] ++ 1 :: []) []) 1
      = some ((listMax ((wPreds 1).filterMap (fun p =>
          (alookup (strataFold wPreds [(0, 1)] [0] []) p).map
            (fun st => st + (if (p, 1) ∈ [((0 : Nat), (1 : Nat))] then 1 else 0))))).getD 0)
    ∧ (∀ p : Nat, p ∈ [0] →
        alookup (strataFold wPreds [(0, 1)] ([0] ++ 1 :: []) []) p
          = alookup (strataFold wPreds [(0, 1)] [0] []) p)
    ∧ (wPreds 1 = [] →
        alookup (strataFold wPreds [(0, 1)] ([0] ++ 1 :: []) []) 1 = some 0) :=
  claim_C2_amended wPreds [(0, 1)] [0] [] 1 [] (by decide)

/-! ## Claim C4: external-input isolation -/

/-- Whether node `n` is an operator flagged `is_external_input`. -/
def PGraph.opIsExternal (g : PGraph) (n : Nat) : Bool :=
  match alookup g.nodes n with
  | some (.operator props _) => props.isExternalInput
  | _ => false

/-- Whether node `n` is an operator node. -/
def PGraph.isOperatorAt (g : PGraph) (n : Nat) : Bool :=
  match alookup g.nodes n with
  | some nd => nd.isOperator
  | none => false

/-- Modelled from the spec: catalogue properties of an external-input
source operator such as `source_stdin` (`is_external_input = true`, no
input delays; the per-operator catalogue files are not among the sources
under verification). -/
def extProps : OpProps :=
  { isExternalInput := true
    inputDelay := fun _ => none }

/-- An external-input source feeding a sink operator: the two coalesce
into one stratum-0 subgraph, which Phase F leaves untouched. -/
def gC4 : PGraph where
  nodes := [(0, .operator extProps "source_stdin()"), (1, .operator plainProps "for_each(f)")]
  edges := [(0, ⟨0, 1⟩)]
  ports := [(0, (.elided 0, .elided 0))]
  nextNode := 2
  nextEdge := 1
  nodeSubgraph := []
  subgraphNodes := []
  nextSubgraph := 0
  subgraphStratum := []
  subgraphRecvHandoffs := []
  subgraphSendHandoffs := []
  subgraphInternalHandoffs := []
  nodeColor := []

/-- **C4 (counterexample).** In the lowering of `gC4`, the external-input
operator `0` ends up in subgraph 0 = `[0, 1]` — a stratum-0 subgraph that
is *not* a singleton — and its only outgoing edge goes directly to
operator `1` with no handoff: `separate_external_inputs` skips operators
already at stratum 0. -/
theorem claim_C4_counterexample :
    (tryFromGraph gC4).opIsExternal 0 = true
    ∧ alookup (tryFromGraph gC4).nodeSubgraph 0 = some 0
    ∧ alookup (tryFromGraph gC4).subgraphNodes 0 = some [0, 1]
    ∧ alookup (tryFromGraph gC4).subgraphStratum 0 = some 0
    ∧ (tryFromGraph gC4).edges = [(0, ⟨0, 1⟩)]
    ∧ (tryFromGraph gC4).isOperatorAt 1 = true
    ∧ tryFrom gC4 = .ok (tryFromGraph gC4, tryFromDiags gC4) :=
  ⟨by decide, by decide, by decide, by decide, by decide, by decide, rfl⟩

/-- **C4 (amended).** `separate_external_inputs` only acts on external
input operators whose current subgraph stratum is nonzero: when no such
operator exists the graph is unchanged (so an external input already in a
stratum-0 subgraph may stay in a non-singleton subgraph with no handoff
added); each operator it does act on is moved into a fresh singleton
subgraph at stratum 0, removed from its old subgraph, and gets a handoff
inserted on its outgoing edge. -/
theorem claim_C4_amended :
    (∀ g : PGraph, externalNonzeroNodes g = [] → separateExternalInputs g = g)
    ∧ (∀ (g : PGraph) (n oldSg : Nat) (members : List Nat) (eid : Nat) (e : GEdge)
        (sp dp : PortIdx),
        alookup g.nodeSubgraph n = some oldSg →
        alookup g.subgraphNodes oldSg = some members →
        oldSg ≠ g.nextSubgraph →
        g.successors n = [(eid, e)] →
        alookup g.edges eid = some e →
        alookup g.ports eid = some (sp, dp) →
        alookup (separateOne g n).nodeSubgraph n = some g.nextSubgraph
        ∧ alookup (separateOne g n).subgraphNodes g.nextSubgraph = some [n]
        ∧ alookup (separateOne g n).subgraphStratum g.nextSubgraph = some 0
        ∧ alookup (separateOne g n).subgraphNodes oldSg = some (members.erase n)
        ∧ alookup (separateOne g n).nodes g.nextNode = some .handoff
        ∧ alookup (separateOne g n).edges g.nextEdge = some ⟨n, g.nextNode⟩
        ∧ alookup (separateOne g n).edges (g.nextEdge + 1) = some ⟨g.nextNode, e.dst⟩) := by
  constructor
  · intro g h
    unfold separateExternalInputs
    rw [h]
    rfl
  · intro g n oldSg members eid e sp dp hnsg hsgn hne hsucc he hp
    have hsrc : e.src = n := by
      have hmem : (eid, e) ∈ g.successors n := by
        rw [hsucc]
        exact List.mem_singleton_self _
      exact of_decide_eq_true (List.mem_filter.mp hmem).2
    have hins := insertIntermediateNode_eq
      ({ g with
        subgraphNodes := ainsert (ainsert g.subgraphNodes oldSg (members.erase n))
          g.nextSubgraph [n]
        nextSubgraph := g.nextSubgraph + 1
        nodeSubgraph := ainsert g.nodeSubgraph n g.nextSubgraph
        subgraphStratum := ainsert g.subgraphStratum g.nextSubgraph 0 })
      eid .handoff e sp dp he hp
    have hsep : separateOne g n = { g with
        nodes := ainsert g.nodes g.nextNode .handoff
        nextNode := g.nextNode + 1
        edges := ainsert (ainsert (aremove g.edges eid) g.nextEdge ⟨e.src, g.nextNode⟩)
          (g.nextEdge + 1) ⟨g.nextNode, e.dst⟩
        nextEdge := g.nextEdge + 2
        ports := ainsert (ainsert (aremove g.ports eid) g.nextEdge (sp, .elided 0))
          (g.nextEdge + 1) (.elided 0, dp)
        nodeSubgraph := ainsert g.nodeSubgraph n g.nextSubgraph
        subgraphNodes := ainsert (ainsert g.subgraphNodes oldSg (members.erase n))
          g.nextSubgraph [n]
        nextSubgraph := g.nextSubgraph + 1
        subgraphStratum := ainsert g.subgraphStratum g.nextSubgraph 0 } := by
      simp only [PGraph.successors] at hsucc
      simp only [separateOne, hnsg, Option.getD_some, hsgn, PGraph.successors]
      rw [hsucc]
      simp only [List.map_cons, List.map_nil, List.foldl_cons, List.foldl_nil]
      rw [hins]
    rw [hsep]
    refine ⟨?_, ?_, ?_, ?_, ?_, ?_, ?_⟩
    · exact alookup_ainsert_self _ _ _
    · exact alookup_ainsert_self _ _ _
    · exact alookup_ainsert_self _ _ _
    · rw [alookup_ainsert_ne _ _ _ _ hne]
      exact alookup_ainsert_self _ _ _
    · exact alookup_ainsert_self _ _ _
    · rw [alookup_ainsert_ne _ _ _ _ (by omega), alookup_ainsert_self, hsrc]
    · exact alookup_ainsert_self _ _ _

/-- An external-input operator in a stratum-2 subgraph shared with another
operator, with one outgoing edge. -/
def gExt : PGraph where
  nodes := [(0, .operator extProps "source_stdin()"), (1, .operator plainProps "map(f)")]
  edges := [(0, ⟨0, 1⟩)]
  ports := [(0, (.elided 0, .elided 0))]
  nextNode := 2
  nextEdge := 1
  nodeSubgraph := [(0, 0), (1, 0)]
  subgraphNodes := [(0, [0, 1])]
  nextSubgraph := 1
  subgraphStratum := [(0, 2)]
  subgraphRecvHandoffs := []
  subgraphSendHandoffs := []
  subgraphInternalHandoffs := []
  nodeColor := []

/-- Witness for the amended C4: isolating node 0 of `gExt` yields a fresh
singleton subgraph 1 at stratum 0 with a handoff on its outgoing edge. -/
theorem claim_C4_amended_witness :
    alookup (separateOne gExt 0).nodeSubgraph 0 = some gExt.nextSubgraph
    ∧ alookup (separateOne gExt 0).subgraphNodes gExt.nextSubgraph = some [0]
    ∧ alookup (separateOne gExt 0).subgraphStratum gExt.nextSubgraph = some 0
    ∧ alookup (separateOne gExt 0).subgraphNodes 0 = some ([0, 1].erase 0)
    ∧ alookup (separateOne gExt 0).nodes gExt.nextNode = some .handoff
    ∧ alookup (separateOne gExt 0).edges gExt.nextEdge = some ⟨0, gExt.nextNode⟩
    ∧ alookup (separateOne gExt 0).edges (gExt.nextEdge + 1) = some ⟨gExt.nextNode, 1⟩ :=
  claim_C4_amended.2 gExt 0 0 [0, 1] 0 ⟨0, 1⟩ (.elided 0) (.elided 0)
    rfl rfl (by decide) rfl rfl rfl

/-! ## Claim C9: handoff bookkeeping membership -/

theorem mem_apush_self (m : List (Nat × List Nat)) (k v : Nat) :
    v ∈ (alookup (apush m k v) k).getD [] := by
  unfold apush
  rw [alookup_ainsert_self]
  simp

theorem mem_apush_mono (m : List (Nat × List Nat)) (k k' v v' : Nat)
    (h : v ∈ (alookup m k').getD []) :
    v ∈ (alookup (apush m k v') k').getD [] := by
  unfold apush
  by_cases hk : k' = k
  · subst hk
    rw [alookup_ainsert_self]
    simp only [Option.getD_some]
    exact List.mem_append_left _ h
  · rw [alookup_ainsert_ne _ _ _ _ hk]
    exact h

theorem handoffStep_send_mono (g : PGraph)
    (acc : List (Nat × List Nat) × List (Nat × List Nat) × List Diagnostic)
    (p : Nat × GEdge) (s v : Nat) (h : v ∈ (alookup acc.2.1 s).getD []) :
    v ∈ (alookup (handoffStep g acc p).2.1 s).getD [] := by
  simp only [handoffStep]
  cases h1 : alookup g.nodes p.2.src with
  | none => exact h
  | some n1 =>
    cases h2 : alookup g.nodes p.2.dst with
    | none => cases n1 <;> exact h
    | some n2 =>
      cases n1 <;> cases n2 <;> simp only []
      · exact h
      · exact mem_apush_mono _ _ _ _ _ h
      · exact h
      · exact h

theorem handoffStep_recv_mono (g : PGraph)
    (acc : List (Nat × List Nat) × List (Nat × List Nat) × List Diagnostic)
    (p : Nat × GEdge) (s v : Nat) (h : v ∈ (alookup acc.1 s).getD []) :
    v ∈ (alookup (handoffStep g acc p).1 s).getD [] := by
  simp only [handoffStep]
  cases h1 : alookup g.nodes p.2.src with
  | none => exact h
  | some n1 =>
    cases h2 : alookup g.nodes p.2.dst with
    | none => cases n1 <;> exact h
    | some n2 =>
      cases n1 <;> cases n2 <;> simp only []
      · exact h
      · exact h
      · exact mem_apush_mono _ _ _ _ _ h
      · exact h

theorem handoffStep_send_hit (g : PGraph)
    (acc : List (Nat × List Nat) × List (Nat × List Nat) × List Diagnostic)
    (p : Nat × GEdge) (s : Nat)
    (hsrc : ∃ (pr : OpProps) (tx : String), alookup g.nodes p.2.src = some (.operator pr tx))
    (hdst : alookup g.nodes p.2.dst = some .handoff)
    (hs : alookup g.nodeSubgraph p.2.src = some s) :
    p.2.dst ∈ (alookup (handoffStep g acc p).2.1 s).getD [] := by
  obtain ⟨pr, tx, hsrc⟩ := hsrc
  simp only [handoffStep, hsrc, hdst, hs, Option.getD_some]
  exact mem_apush_self _ _ _

theorem handoffStep_recv_hit (g : PGraph)
    (acc : List (Nat × List Nat) × List (Nat × List Nat) × List Diagnostic)
    (p : Nat × GEdge) (s : Nat)
    (hsrc : alookup g.nodes p.2.src = some .handoff)
    (hdst : ∃ (pr : OpProps) (tx : String), alookup g.nodes p.2.dst = some (.operator pr tx))
    (hs : alookup g.nodeSubgraph p.2.dst = some s) :
    p.2.src ∈ (alookup (handoffStep g acc p).1 s).getD [] := by
  obtain ⟨pr, tx, hdst⟩ := hdst
  simp only [handoffStep, hsrc, hdst, hs, Option.getD_some]
  exact mem_apush_self _ _ _

theorem foldl_handoffStep_send_mono (g : PGraph) (l : List (Nat × GEdge))
    (acc : List (Nat × List Nat) × List (Nat × List Nat) × List Diagnostic)
    (s v : Nat) (h : v ∈ (alookup acc.2.1 s).getD []) :
    v ∈ (alookup (l.foldl (handoffStep g) acc).2.1 s).getD [] := by
  induction l generalizing acc with
  | nil => exact h
  | cons hd tl ih => exact ih _ (handoffStep_send_mono g acc hd s v h)

theorem foldl_handoffStep_recv_mono (g : PGraph) (l : List (Nat × GEdge))
    (acc : List (Nat × List Nat) × List (Nat × List Nat) × List Diagnostic)
    (s v : Nat) (h : v ∈ (alookup acc.1 s).getD []) :
    v ∈ (alookup (l.foldl (handoffStep g) acc).1 s).getD [] := by
  induction l generalizing acc with
  | nil => exact h
  | cons hd tl ih => exact ih _ (handoffStep_recv_mono g acc hd s v h)

theorem foldl_handoffStep_send (g : PGraph) (l : List (Nat × GEdge))
    (acc : List (Nat × List Nat) × List (Nat × List Nat) × List Diagnostic)
    (eid : Nat) (e : GEdge) (s : Nat)
    (hmem : (eid, e) ∈ l)
    (hsrc : ∃ (pr : OpProps) (tx : String), alookup g.nodes e.src = some (.operator pr tx))
    (hdst : alookup g.nodes e.dst = some .handoff)
    (hs : alookup g.nodeSubgraph e.src = some s) :
    e.dst ∈ (alookup (l.foldl (handoffStep g) acc).2.1 s).getD [] := by
  induction l generalizing acc with
  | nil => cases hmem
  | cons hd tl ih =>
    rcases List.mem_cons.mp hmem with h | h
    · subst h
      exact foldl_handoffStep_send_mono g tl _ s _
        (handoffStep_send_hit g acc (eid, e) s hsrc hdst hs)
    · exact ih _ h

theorem foldl_handoffStep_recv (g : PGraph) (l : List (Nat × GEdge))
    (acc : List (Nat × List Nat) × List (Nat × List Nat) × List Diagnostic)
    (eid : Nat) (e : GEdge) (s : Nat)
    (hmem : (eid, e) ∈ l)
    (hsrc : alookup g.nodes e.src = some .handoff)
    (hdst : ∃ (pr : OpProps) (tx : String), alookup g.nodes e.dst = some (.operator pr tx))
    (hs : alookup g.nodeSubgraph e.dst = some s) :
    e.src ∈ (alookup (l.foldl (handoffStep g) acc).1 s).getD [] := by
  induction l generalizing acc with
  | nil => cases hmem
  | cons hd tl ih =>
    rcases List.mem_cons.mp hmem with h | h
    · subst h
      exact foldl_handoffStep_recv_mono g tl _ s _
        (handoffStep_recv_hit g acc (eid, e) s hsrc hdst hs)
    · exact ih _ h

/-- **C9.** In the partitioned graph returned by the conversion, every
`operator -> handoff` edge puts the handoff in `subgraph_send_handoffs`
of the operator's subgraph, and every `handoff -> operator` edge puts the
handoff in `subgraph_recv_handoffs` of the operator's subgraph (the
Phase G field-assigned maps are the ones installed in the output). -/
theorem claim_C9_handoff_bookkeeping (g : PGraph) :
    tryFrom g = .ok (tryFromGraph g, tryFromDiags g)
    ∧ (∀ (eid : Nat) (e : GEdge) (s : Nat),
        (eid, e) ∈ (tryFromGraph g).edges →
        (∃ (pr : OpProps) (tx : String),
          alookup (tryFromGraph g).nodes e.src = some (.operator pr tx)) →
        alookup (tryFromGraph g).nodes e.dst = some .handoff →
        alookup (tryFromGraph g).nodeSubgraph e.src = some s →
        e.dst ∈ (alookup (tryFromGraph g).subgraphSendHandoffs s).getD [])
    ∧ (∀ (eid : Nat) (e : GEdge) (s : Nat),
        (eid, e) ∈ (tryFromGraph g).edges →
        alookup (tryFromGraph g).nodes e.src = some .handoff →
        (∃ (pr : OpProps) (tx : String),
          alookup (tryFromGraph g).nodes e.dst = some (.operator pr tx)) →
        alookup (tryFromGraph g).nodeSubgraph e.dst = some s →
        e.src ∈ (alookup (tryFromGraph g).subgraphRecvHandoffs s).getD []) := by
  refine ⟨rfl, ?_, ?_⟩
  · intro eid e s hmem hsrc hdst hs
    exact foldl_handoffStep_send (phaseFGraph g) (phaseFGraph g).edges _ eid e s
      hmem hsrc hdst hs
  · intro eid e s hmem hsrc hdst hs
    exact foldl_handoffStep_recv (phaseFGraph g) (phaseFGraph g).edges _ eid e s
      hmem hsrc hdst hs

/-- Witness for C9 on `gC1`: edge `2` goes from operator `0` to handoff
`2`, and handoff `2` appears in the send list of subgraph 0. -/
theorem claim_C9_witness :
    (2 : Nat) ∈ (alookup (tryFromGraph gC1).subgraphSendHandoffs 0).getD [] :=
  (claim_C9_handoff_bookkeeping gC1).2.1 2 ⟨0, 2⟩ 0 (by decide)
    ⟨stratumProps, "difference -- neg", rfl⟩ rfl (by decide)

/-! ## The IR graph (`hydro_lang/src/ir.rs`) -/

/-- Opaque token standing for a `syn::Expr` payload. -/
abbrev Expr := Nat

/-- Opaque token standing for a boxed `FnOnce()` connect callback. -/
abbrev ConnectFn := Nat

/-- Modelled from the spec: `LocationId` in four variants
(`location.rs` is not among the sources under verification). -/
inductive LocationId
  | process (id : Nat)
  | cluster (id : Nat)
  | externalProcess (id : Nat)
  | tickLoc (parentId : Nat) (inner : LocationId)
deriving DecidableEq, Repr

/-- `DebugInstantiate` (ir.rs): the single-shot network instantiation
slot.  The `Option` around the callback models the takeable
`Option<Box<dyn FnOnce()>>`. -/
inductive DebugInstantiate
  | building
  | finalized (sink : Expr) (source : Expr) (connectFn : Option ConnectFn)
deriving DecidableEq, Repr

/-- `HydroSource` (ir.rs). -/
inductive HydroSource
  | stream (e : Expr)
  | externalNetwork
  | iter (e : Expr)
  | spin
deriving DecidableEq, Repr

/-- `HydroNode` (ir.rs).  A `tee` holds the address of a shared cell in a
`TeeStore` (the `Rc<RefCell<HydroNode>>` heap). -/
inductive HNode
  | placeholder
  | source (src : HydroSource) (locationKind : LocationId)
  | cycleSource (ident : Nat) (locationKind : LocationId)
  | tee (inner : Nat)
  | persist (input : HNode)
  | unpersist (input : HNode)
  | delta (input : HNode)
  | chain (left right : HNode)
  | crossProduct (left right : HNode)
  | crossSingleton (left right : HNode)
  | join (left right : HNode)
  | difference (left right : HNode)
  | antiJoin (left right : HNode)
  | map (f : Expr) (input : HNode)
  | flatMap (f : Expr) (input : HNode)
  | filter (f : Expr) (input : HNode)
  | filterMap (f : Expr) (input : HNode)
  | deferTick (input : HNode)
  | enumerate (isStatic : Bool) (input : HNode)
  | inspect (f : Expr) (input : HNode)
  | unique (input : HNode)
  | sort (input : HNode)
  | fold (i : Expr) (acc : Expr) (input : HNode)
  | foldKeyed (i : Expr) (acc : Expr) (input : HNode)
  | reduce (f : Expr) (input : HNode)
  | reduceKeyed (f : Expr) (input : HNode)
  | network (fromLocation : LocationId) (fromKey : Option Nat) (toLocation : LocationId)
      (toKey : Option Nat) (serializeFn : Option Expr) (instantiateFn : DebugInstantiate)
      (deserializeFn : Option Expr) (input : HNode)

/-- The heap of shared tee cells (`Rc<RefCell<HydroNode>>` identities are
`Nat` addresses; `next` is the next fresh address). -/
structure TeeStore where
  cells : List (Nat × HNode)
  next : Nat

/-- `SeenTees`: map from an input tee-cell address to the address of its
transformed cell. -/
abbrev SeenTees := List (Nat × Nat)

/-- `HydroNode::transform_children` (ir.rs): apply `f` to every child of
the node once, threading the seen-tees map and the cell heap.  For a tee:
a previously seen cell is replaced by its transformed cell without
touching the state; a first-encountered cell gets a fresh placeholder cell
installed in `seen_tees`, the original body (also swapped for a
placeholder) is transformed, and the placeholder cell is then overwritten
with the transformed body.  (Rust panics on `Placeholder`; the traversal
theorems below are stated away from placeholders.) -/
def transformChildren (f : HNode → SeenTees → TeeStore → HNode × SeenTees × TeeStore) :
    HNode → SeenTees → TeeStore → HNode × SeenTees × TeeStore
  | .placeholder, seen, store => (.placeholder, seen, store)
  | .source s l, seen, store => (.source s l, seen, store)
  | .cycleSource i l, seen, store => (.cycleSource i l, seen, store)
  | .tee a, seen, store =>
    match alookup seen a with
    | some t => (.tee t, seen, store)
    | none =>
      let t := store.next
      let orig := (alookup store.cells a).getD .placeholder
      let seen1 := ainsert seen a t
      let store2 : TeeStore :=
        ⟨ainsert (ainsert store.cells t .placeholder) a .placeholder, store.next + 1⟩
      let r := f orig seen1 store2
      (.tee t, r.2.1, ⟨ainsert r.2.2.cells t r.1, r.2.2.next⟩)
  | .persist i, seen, store =>
    let r := f i seen store
    (.persist r.1, r.2.1, r.2.2)
  | .unpersist i, seen, store =>
    let r := f i seen store
    (.unpersist r.1, r.2.1, r.2.2)
  | .delta i, seen, store =>
    let r := f i seen store
    (.delta r.1, r.2.1, r.2.2)
  | .chain l r, seen, store =>
    let r1 := f l seen store
    let r2 := f r r1.2.1 r1.2.2
    (.chain r1.1 r2.1, r2.2.1, r2.2.2)
  | .crossProduct l r, seen, store =>
    let r1 := f l seen store
    let r2 := f r r1.2.1 r1.2.2
    (.crossProduct r1.1 r2.1, r2.2.1, r2.2.2)
  | .crossSingleton l r, seen, store =>
    let r1 := f l seen store
    let r2 := f r r1.2.1 r1.2.2
    (.crossSingleton r1.1 r2.1, r2.2.1, r2.2.2)
  | .join l r, seen, store =>
    let r1 := f l seen store
    let r2 := f r r1.2.1 r1.2.2
    (.join r1.1 r2.1, r2.2.1, r2.2.2)
  | .difference l r, seen, store =>
    let r1 := f l seen store
    let r2 := f r r1.2.1 r1.2.2
    (.difference r1.1 r2.1, r2.2.1, r2.2.2)
  | .antiJoin l r, seen, store =>
    let r1 := f l seen store
    let r2 := f r r1.2.1 r1.2.2
    (.antiJoin r1.1 r2.1, r2.2.1, r2.2.2)
  | .map fe i, seen, store =>
    let r := f i seen store
    (.map fe r.1, r.2.1, r.2.2)
  | .flatMap fe i, seen, store =>
    let r := f i seen store
    (.flatMap fe r.1, r.2.1, r.2.2)
  | .filter fe i, seen, store =>
    let r := f i seen store
    (.filter fe r.1, r.2.1, r.2.2)
  | .filterMap fe i, seen, store =>
    let r := f i seen store
    (.filterMap fe r.1, r.2.1, r.2.2)
  | .deferTick i, seen, store =>
    let r := f i seen store
    (.deferTick r.1, r.2.1, r.2.2)
  | .enumerate st i, seen, store =>
    let r := f i seen store
    (.enumerate st r.1, r.2.1, r.2.2)
  | .inspect fe i, seen, store =>
    let r := f i seen store
    (.inspect fe r.1, r.2.1, r.2.2)
  | .unique i, seen, store =>
    let r := f i seen store
    (.unique r.1, r.2.1, r.2.2)
  | .sort i, seen, store =>
    let r := f i seen store
    (.sort r.1, r.2.1, r.2.2)
  | .fold fi fa i, seen, store =>
    let r := f i seen store
    (.fold fi fa r.1, r.2.1, r.2.2)
  | .foldKeyed fi fa i, seen, store =>
    let r := f i seen store
    (.foldKeyed fi fa r.1, r.2.1, r.2.2)
  | .reduce fe i, seen, store =>
    let r := f i seen store
    (.reduce fe r.1, r.2.1, r.2.2)
  | .reduceKeyed fe i, seen, store =>
    let r := f i seen store
    (.reduceKeyed fe r.1, r.2.1, r.2.2)
  | .network fl fk tl tk sf inst df i, seen, store =>
    let r := f i seen store
    (.network fl fk tl tk sf inst df r.1, r.2.1, r.2.2)

/-! ## Claim C7: tee sharing under `transform_children` -/

/-- The child transform only extends the seen-tees map (it never removes
or overwrites a recorded tee); this is how the recursive traversals
(`compile_network`, `connect_network`, `transform_bottom_up`) use it. -/
def SeenMono (f : HNode → SeenTees → TeeStore → HNode × SeenTees × TeeStore) : Prop :=
  ∀ (n : HNode) (s : SeenTees) (st : TeeStore) (k v : Nat),
    alookup s k = some v → alookup (f n s st).2.1 k = some v

/-- Invariant of the seen-tees map: every transformed-cell address is
below the allocation counter, and distinct input cells map to distinct
transformed cells. -/
def SeenInv (s : SeenTees) (st : TeeStore) : Prop :=
  (∀ k v : Nat, alookup s k = some v → v < st.next)
    ∧ (∀ k1 k2 v : Nat, alookup s k1 = some v → alookup s k2 = some v → k1 = k2)

/-- The child transform preserves `SeenInv`. -/
def InvPres (f : HNode → SeenTees → TeeStore → HNode × SeenTees × TeeStore) : Prop :=
  ∀ (n : HNode) (s : SeenTees) (st : TeeStore),
    SeenInv s st → SeenInv (f n s st).2.1 (f n s st).2.2

/-- **C7.** Tee sharing under `transform_children` with a shared
`seen_tees` map: (a) a tee whose cell is already in `seen_tees` is
rewired to the recorded transformed cell with no state change; (b) a
first-encountered tee allocates the fresh cell `store.next`, records the
mapping, hands `f` a state in which both the fresh cell and the original
cell hold `Placeholder`, then overwrites the fresh cell with the
transformed body — and the mapping survives the recursive transform;
(c) hence two parents referencing the same input cell reference the same
single transformed cell; (d) `transform_children` preserves the
freshness/injectivity invariant of `seen_tees`, so the recorded
correspondence between input cells and transformed cells stays bijective
(the number of distinct tee cells is preserved). -/
theorem claim_C7_tee_sharing
    (f : HNode → SeenTees → TeeStore → HNode × SeenTees × TeeStore)
    (hmono : SeenMono f) (hinv : InvPres f) :
    (∀ (a t : Nat) (seen : SeenTees) (store : TeeStore),
      alookup seen a = some t →
      transformChildren f (.tee a) seen store = (.tee t, seen, store))
    ∧ (∀ (a : Nat) (seen : SeenTees) (store : TeeStore),
      alookup seen a = none →
      alookup (ainsert (ainsert store.cells store.next .placeholder)
        a .placeholder) store.next = some .placeholder
      ∧ alookup (ainsert (ainsert store.cells store.next .placeholder)
        a .placeholder) a = some .placeholder
      ∧ transformChildren f (.tee a) seen store
        = (.tee store.next,
          (f ((alookup store.cells a).getD .placeholder) (ainsert seen a store.next)
            ⟨ainsert (ainsert store.cells store.next .placeholder) a .placeholder,
              store.next + 1⟩).2.1,
          ⟨ainsert (f ((alookup store.cells a).getD .placeholder)
              (ainsert seen a store.next)
              ⟨ainsert (ainsert store.cells store.next .placeholder) a .placeholder,
                store.next + 1⟩).2.2.cells store.next
            (f ((alookup store.cells a).getD .placeholder) (ainsert seen a store.next)
              ⟨ainsert (ainsert store.cells store.next .placeholder) a .placeholder,
                store.next + 1⟩).1,
            (f ((alookup store.cells a).getD .placeholder) (ainsert seen a store.next)
              ⟨ainsert (ainsert store.cells store.next .placeholder) a .placeholder,
                store.next + 1⟩).2.2.next⟩)
      ∧ alookup (transformChildren f (.tee a) seen store).2.1 a = some store.next)
    ∧ (∀ (a : Nat) (seen : SeenTees) (store : TeeStore),
      alookup seen a = none →
      (transformChildren f (.tee a) seen store).1 = .tee store.next
      ∧ (transformChildren f
          (.tee a)
          (transformChildren f (.tee a) seen store).2.1
          (transformChildren f (.tee a) seen store).2.2)
        = (.tee store.next,
          (transformChildren f (.tee a) seen store).2.1,
          (transformChildren f (.tee a) seen store).2.2))
    ∧ (∀ (n : HNode) (s : SeenTees) (st : TeeStore),
      SeenInv s st →
      SeenInv (transformChildren f n s st).2.1 (transformChildren f n s st).2.2)
    ∧ (∀ (s : SeenTees) (st : TeeStore) (a1 a2 t1 t2 : Nat),
      SeenInv s st →
      alookup s a1 = some t1 → alookup s a2 = some t2 → (a1 = a2 ↔ t1 = t2)) := by
  have hsecond : ∀ (a t : Nat) (seen : SeenTees) (store : TeeStore),
      alookup seen a = some t →
      transformChildren f (.tee a) seen store = (.tee t, seen, store) := by
    intro a t seen store h
    simp only [transformChildren, h]
  have hfirstMap : ∀ (a : Nat) (seen : SeenTees) (store : TeeStore),
      alookup seen a = none →
      alookup (transformChildren f (.tee a) seen store).2.1 a = some store.next := by
    intro a seen store h
    simp only [transformChildren, h]
    exact hmono _ _ _ _ _ (alookup_ainsert_self seen a store.next)
  refine ⟨hsecond, ?_, ?_, ?_, ?_⟩
  · intro a seen store h
    refine ⟨?_, ?_, ?_, hfirstMap a seen store h⟩
    · by_cases hat : a = store.next
      · subst hat
        exact alookup_ainsert_self _ _ _
      · rw [alookup_ainsert_ne _ _ _ _ (fun hh => hat hh.symm)]
        exact alookup_ainsert_self _ _ _
    · exact alookup_ainsert_self _ _ _
    · simp only [transformChildren, h]
  · intro a seen store h
    have h1 : (transformChildren f (.tee a) seen store).1 = .tee store.next := by
      simp only [transformChildren, h]
    refine ⟨h1, ?_⟩
    have h2 := hfirstMap a seen store h
    exact hsecond a store.next _ _ h2
  · intro n s st h
    cases n with
    | tee a =>
      simp only [transformChildren]
      cases hl : alookup s a with
      | some t => exact h
      | none =>
        have h1 : SeenInv (ainsert s a st.next)
            ⟨ainsert (ainsert st.cells st.next .placeholder) a .placeholder,
              st.next + 1⟩ := by
          constructor
          · intro k v hk
            show v < st.next + 1
            by_cases hka : k = a
            · subst hka
              rw [alookup_ainsert_self] at hk
              have hv := Option.some.inj hk
              omega
            · rw [alookup_ainsert_ne _ _ _ _ hka] at hk
              have := h.1 k v hk
              omega
          · intro k1 k2 v hk1 hk2
            by_cases h1a : k1 = a <;> by_cases h2a : k2 = a
            · rw [h1a, h2a]
            · subst h1a
              rw [alookup_ainsert_self] at hk1
              rw [alookup_ainsert_ne _ _ _ _ h2a] at hk2
              have hv := Option.some.inj hk1
              have := h.1 k2 v hk2
              omega
            · subst h2a
              rw [alookup_ainsert_self] at hk2
              rw [alookup_ainsert_ne _ _ _ _ h1a] at hk1
              have hv := Option.some.inj hk2
              have := h.1 k1 v hk1
              omega
            · rw [alookup_ainsert_ne _ _ _ _ h1a] at hk1
              rw [alookup_ainsert_ne _ _ _ _ h2a] at hk2
              exact h.2 k1 k2 v hk1 hk2
        have h2 := hinv ((alookup st.cells a).getD .placeholder) _ _ h1
        exact ⟨h2.1, h2.2⟩
    | placeholder => exact h
    | source s l => exact h
    | cycleSource i l => exact h
    | persist i => exact hinv _ _ _ h
    | unpersist i => exact hinv _ _ _ h
    | delta i => exact hinv _ _ _ h
    | chain l r => exact hinv _ _ _ (hinv _ _ _ h)
    | crossProduct l r => exact hinv _ _ _ (hinv _ _ _ h)
    | crossSingleton l r => exact hinv _ _ _ (hinv _ _ _ h)
    | join l r => exact hinv _ _ _ (hinv _ _ _ h)
    | difference l r => exact hinv _ _ _ (hinv _ _ _ h)
    | antiJoin l r => exact hinv _ _ _ (hinv _ _ _ h)
    | map fe i => exact hinv _ _ _ h
    | flatMap fe i => exact hinv _ _ _ h
    | filter fe i => exact hinv _ _ _ h
    | filterMap fe i => exact hinv _ _ _ h
    | deferTick i => exact hinv _ _ _ h
    | enumerate st2 i => exact hinv _ _ _ h
    | inspect fe i => exact hinv _ _ _ h
    | unique i => exact hinv _ _ _ h
    | sort i => exact hinv _ _ _ h
    | fold fi fa i => exact hinv _ _ _ h
    | foldKeyed fi fa i => exact hinv _ _ _ h
    | reduce fe i => exact hinv _ _ _ h
    | reduceKeyed fe i => exact hinv _ _ _ h
    | network fl fk tl tk sf inst df i => exact hinv _ _ _ h
  · intro s st a1 a2 t1 t2 h h1 h2
    constructor
    · intro he
      rw [he] at h1
      rw [h1] at h2
      exact Option.some.inj h2
    · intro he
      subst he
      exact h.2 a1 a2 t1 h1 h2

/-- The identity child transform (keeps node and state unchanged); it is
seen-monotone and invariant-preserving. -/
def idTransform : HNode → SeenTees → TeeStore → HNode × SeenTees × TeeStore :=
  fun n s st => (n, s, st)

/-- Witness for C7: a tee whose cell `0` is already recorded as
transformed cell `5` is rewired to cell `5` with no state change. -/
theorem claim_C7_witness :
    transformChildren idTransform (.tee 0) [(0, 5)] ⟨[], 9⟩
      = (.tee 5, [(0, 5)], ⟨[], 9⟩) :=
  (claim_C7_tee_sharing idTransform (fun _ _ _ _ _ h => h) (fun _ _ _ h => h)).1
    0 5 [(0, 5)] ⟨[], 9⟩ rfl

/-! ## Claim C8: `connect_network` -/

/-- `HydroNode::connect_network` (ir.rs), on tree-shaped IR graphs:
children are processed first (post-order, via `transform_children`), then
a `Network` node runs `connect_fn.take().unwrap()()` — panicking
(modelled as `Except.error`) when the instantiation is still `Building`
or the callback was already taken; `Placeholder` panics in
`transform_children`.  Returns the graph with consumed callbacks together
with the list of invoked callbacks in invocation order.  (A `tee` is left
in place: the shared-cell traversal is modelled in the C7 development;
the theorems below are about tee-free trees.) -/
def connectNetwork : HNode → Except String (HNode × List ConnectFn)
  | .placeholder => .error "placeholder"
  | .source s l => .ok (.source s l, [])
  | .cycleSource i l => .ok (.cycleSource i l, [])
  | .tee a => .ok (.tee a, [])
  | .persist i =>
    match connectNetwork i with
    | .error e => .error e
    | .ok r => .ok (.persist r.1, r.2)
  | .unpersist i =>
    match connectNetwork i with
    | .error e => .error e
    | .ok r => .ok (.unpersist r.1, r.2)
  | .delta i =>
    match connectNetwork i with
    | .error e => .error e
    | .ok r => .ok (.delta r.1, r.2)
  | .chain l r =>
    match connectNetwork l with
    | .error e => .error e
    | .ok r1 =>
      match connectNetwork r with
      | .error e => .error e
      | .ok r2 => .ok (.chain r1.1 r2.1, r1.2 ++ r2.2)
  | .crossProduct l r =>
    match connectNetwork l with
    | .error e => .error e
    | .ok r1 =>
      match connectNetwork r with
      | .error e => .error e
      | .ok r2 => .ok (.crossProduct r1.1 r2.1, r1.2 ++ r2.2)
  | .crossSingleton l r =>
    match connectNetwork l with
    | .error e => .error e
    | .ok r1 =>
      match connectNetwork r with
      | .error e => .error e
      | .ok r2 => .ok (.crossSingleton r1.1 r2.1, r1.2 ++ r2.2)
  | .join l r =>
    match connectNetwork l with
    | .error e => .error e
    | .ok r1 =>
      match connectNetwork r with
      | .error e => .error e
      | .ok r2 => .ok (.join r1.1 r2.1, r1.2 ++ r2.2)
  | .difference l r =>
    match connectNetwork l with
    | .error e => .error e
    | .ok r1 =>
      match connectNetwork r with
      | .error e => .error e
      | .ok r2 => .ok (.difference r1.1 r2.1, r1.2 ++ r2.2)
  | .antiJoin l r =>
    match connectNetwork l with
    | .error e => .error e
    | .ok r1 =>
      match connectNetwork r with
      | .error e => .error e
      | .ok r2 => .ok (.antiJoin r1.1 r2.1, r1.2 ++ r2.2)
  | .map fe i =>
    match connectNetwork i with
    | .error e => .error e
    | .ok r => .ok (.map fe r.1, r.2)
  | .flatMap fe i =>
    match connectNetwork i with
    | .error e => .error e
    | .ok r => .ok (.flatMap fe r.1, r.2)
  | .filter fe i =>
    match connectNetwork i with
    | .error e => .error e
    | .ok r => .ok (.filter fe r.1, r.2)
  | .filterMap fe i =>
    match connectNetwork i with
    | .error e => .error e
    | .ok r => .ok (.filterMap fe r.1, r.2)
  | .deferTick i =>
    match connectNetwork i with
    | .error e => .error e
    | .ok r => .ok (.deferTick r.1, r.2)
  | .enumerate st i =>
    match connectNetwork i with
    | .error e => .error e
    | .ok r => .ok (.enumerate st r.1, r.2)
  | .inspect fe i =>
    match connectNetwork i with
    | .error e => .error e
    | .ok r => .ok (.inspect fe r.1, r.2)
  | .unique i =>
    match connectNetwork i with
    | .error e => .error e
    | .ok r => .ok (.unique r.1, r.2)
  | .sort i =>
    match connectNetwork i with
    | .error e => .error e
    | .ok r => .ok (.sort r.1, r.2)
  | .fold fi fa i =>
    match connectNetwork i with
    | .error e => .error e
    | .ok r => .ok (.fold fi fa r.1, r.2)
  | .foldKeyed fi fa i =>
    match connectNetwork i with
    | .error e => .error e
    | .ok r => .ok (.foldKeyed fi fa r.1, r.2)
  | .reduce fe i =>
    match connectNetwork i with
    | .error e => .error e
    | .ok r => .ok (.reduce fe r.1, r.2)
  | .reduceKeyed fe i =>
    match connectNetwork i with
    | .error e => .error e
    | .ok r => .ok (.reduceKeyed fe r.1, r.2)
  | .network fl fk tl tk sf inst df i =>
    match connectNetwork i with
    | .error e => .error e
    | .ok r =>
      match inst with
      | .building => .error "network not built"
      | .finalized sk so cf =>
        match cf with
        | none => .error "connect_fn already taken"
        | some c =>
          .ok (.network fl fk tl tk sf (.finalized sk so none) df r.1, r.2 ++ [c])

/-- Whether a (tree-shaped, tee-free, placeholder-free) IR graph has every
`Network` node `Finalized` with a still-present callback. -/
def allNetworksReady : HNode → Bool
  | .placeholder => false
  | .source _ _ => true
  | .cycleSource _ _ => true
  | .tee _ => false
  | .persist i => allNetworksReady i
  | .unpersist i => allNetworksReady i
  | .delta i => allNetworksReady i
  | .chain l r => allNetworksReady l && allNetworksReady r
  | .crossProduct l r => allNetworksReady l && allNetworksReady r
  | .crossSingleton l r => allNetworksReady l && allNetworksReady r
  | .join l r => allNetworksReady l && allNetworksReady r
  | .difference l r => allNetworksReady l && allNetworksReady r
  | .antiJoin l r => allNetworksReady l && allNetworksReady r
  | .map _ i => allNetworksReady i
  | .flatMap _ i => allNetworksReady i
  | .filter _ i => allNetworksReady i
  | .filterMap _ i => allNetworksReady i
  | .deferTick i => allNetworksReady i
  | .enumerate _ i => allNetworksReady i
  | .inspect _ i => allNetworksReady i
  | .unique i => allNetworksReady i
  | .sort i => allNetworksReady i
  | .fold _ _ i => allNetworksReady i
  | .foldKeyed _ _ i => allNetworksReady i
  | .reduce _ i => allNetworksReady i
  | .reduceKeyed _ i => allNetworksReady i
  | .network _ _ _ _ _ inst _ i =>
    (match inst with
      | .finalized _ _ (some _) => true
      | _ => false) && allNetworksReady i

/-- Whether some `Network` node is still `Building`. -/
def hasBuilding : HNode → Bool
  | .placeholder => false
  | .source _ _ => false
  | .cycleSource _ _ => false
  | .tee _ => false
  | .persist i => hasBuilding i
  | .unpersist i => hasBuilding i
  | .delta i => hasBuilding i
  | .chain l r => hasBuilding l || hasBuilding r
  | .crossProduct l r => hasBuilding l || hasBuilding r
  | .crossSingleton l r => hasBuilding l || hasBuilding r
  | .join l r => hasBuilding l || hasBuilding r
  | .difference l r => hasBuilding l || hasBuilding r
  | .antiJoin l r => hasBuilding l || hasBuilding r
  | .map _ i => hasBuilding i
  | .flatMap _ i => hasBuilding i
  | .filter _ i => hasBuilding i
  | .filterMap _ i => hasBuilding i
  | .deferTick i => hasBuilding i
  | .enumerate _ i => hasBuilding i
  | .inspect _ i => hasBuilding i
  | .unique i => hasBuilding i
  | .sort i => hasBuilding i
  | .fold _ _ i => hasBuilding i
  | .foldKeyed _ _ i => hasBuilding i
  | .reduce _ i => hasBuilding i
  | .reduceKeyed _ i => hasBuilding i
  | .network _ _ _ _ _ inst _ i =>
    (match inst with
      | .building => true
      | _ => false) || hasBuilding i

/-- Whether the graph contains a `Network` node. -/
def hasNetwork : HNode → Bool
  | .placeholder => false
  | .source _ _ => false
  | .cycleSource _ _ => false
  | .tee _ => false
  | .persist i => hasNetwork i
  | .unpersist i => hasNetwork i
  | .delta i => hasNetwork i
  | .chain l r => hasNetwork l || hasNetwork r
  | .crossProduct l r => hasNetwork l || hasNetwork r
  | .crossSingleton l r => hasNetwork l || hasNetwork r
  | .join l r => hasNetwork l || hasNetwork r
  | .difference l r => hasNetwork l || hasNetwork r
  | .antiJoin l r => hasNetwork l || hasNetwork r
  | .map _ i => hasNetwork i
  | .flatMap _ i => hasNetwork i
  | .filter _ i => hasNetwork i
  | .filterMap _ i => hasNetwork i
  | .deferTick i => hasNetwork i
  | .enumerate _ i => hasNetwork i
  | .inspect _ i => hasNetwork i
  | .unique i => hasNetwork i
  | .sort i => hasNetwork i
  | .fold _ _ i => hasNetwork i
  | .foldKeyed _ _ i => hasNetwork i
  | .reduce _ i => hasNetwork i
  | .reduceKeyed _ i => hasNetwork i
  | .network _ _ _ _ _ _ _ _ => true

/-- Whether every `Network` node is `Finalized` with its callback already
taken (the state after a successful `connect_network` run). -/
def allNetsConsumed : HNode → Bool
  | .placeholder => true
  | .source _ _ => true
  | .cycleSource _ _ => true
  | .tee _ => true
  | .persist i => allNetsConsumed i
  | .unpersist i => allNetsConsumed i
  | .delta i => allNetsConsumed i
  | .chain l r => allNetsConsumed l && allNetsConsumed r
  | .crossProduct l r => allNetsConsumed l && allNetsConsumed r
  | .crossSingleton l r => allNetsConsumed l && allNetsConsumed r
  | .join l r => allNetsConsumed l && allNetsConsumed r
  | .difference l r => allNetsConsumed l && allNetsConsumed r
  | .antiJoin l r => allNetsConsumed l && allNetsConsumed r
  | .map _ i => allNetsConsumed i
  | .flatMap _ i => allNetsConsumed i
  | .filter _ i => allNetsConsumed i
  | .filterMap _ i => allNetsConsumed i
  | .deferTick i => allNetsConsumed i
  | .enumerate _ i => allNetsConsumed i
  | .inspect _ i => allNetsConsumed i
  | .unique i => allNetsConsumed i
  | .sort i => allNetsConsumed i
  | .fold _ _ i => allNetsConsumed i
  | .foldKeyed _ _ i => allNetsConsumed i
  | .reduce _ i => allNetsConsumed i
  | .reduceKeyed _ i => allNetsConsumed i
  | .network _ _ _ _ _ inst _ i =>
    (match inst with
      | .finalized _ _ none => true
      | _ => false) && allNetsConsumed i

/-- The graph with every `Network` callback taken (the expected output of
a successful `connect_network`). -/
def consume : HNode → HNode
  | .placeholder => .placeholder
  | .source s l => .source s l
  | .cycleSource i l => .cycleSource i l
  | .tee a => .tee a
  | .persist i => .persist (consume i)
  | .unpersist i => .unpersist (consume i)
  | .delta i => .delta (consume i)
  | .chain l r => .chain (consume l) (consume r)
  | .crossProduct l r => .crossProduct (consume l) (consume r)
  | .crossSingleton l r => .crossSingleton (consume l) (consume r)
  | .join l r => .join (consume l) (consume r)
  | .difference l r => .difference (consume l) (consume r)
  | .antiJoin l r => .antiJoin (consume l) (consume r)
  | .map fe i => .map fe (consume i)
  | .flatMap fe i => .flatMap fe (consume i)
  | .filter fe i => .filter fe (consume i)
  | .filterMap fe i => .filterMap fe (consume i)
  | .deferTick i => .deferTick (consume i)
  | .enumerate st i => .enumerate st (consume i)
  | .inspect fe i => .inspect fe (consume i)
  | .unique i => .unique (consume i)
  | .sort i => .sort (consume i)
  | .fold fi fa i => .fold fi fa (consume i)
  | .foldKeyed fi fa i => .foldKeyed fi fa (consume i)
  | .reduce fe i => .reduce fe (consume i)
  | .reduceKeyed fe i => .reduceKeyed fe (consume i)
  | .network fl fk tl tk sf inst df i =>
    .network fl fk tl tk sf
      (match inst with
        | .finalized sk so _ => .finalized sk so none
        | .building => .building) df (consume i)

/-- The post-order list of all network connect callbacks (each network
contributes its callback exactly once, children first). -/
def netCallbacks : HNode → List ConnectFn
  | .placeholder => []
  | .source _ _ => []
  | .cycleSource _ _ => []
  | .tee _ => []
  | .persist i => netCallbacks i
  | .unpersist i => netCallbacks i
  | .delta i => netCallbacks i
  | .chain l r => netCallbacks l ++ netCallbacks r
  | .crossProduct l r => netCallbacks l ++ netCallbacks r
  | .crossSingleton l r => netCallbacks l ++ netCallbacks r
  | .join l r => netCallbacks l ++ netCallbacks r
  | .difference l r => netCallbacks l ++ netCallbacks r
  | .antiJoin l r => netCallbacks l ++ netCallbacks r
  | .map _ i => netCallbacks i
  | .flatMap _ i => netCallbacks i
  | .filter _ i => netCallbacks i
  | .filterMap _ i => netCallbacks i
  | .deferTick i => netCallbacks i
  | .enumerate _ i => netCallbacks i
  | .inspect _ i => netCallbacks i
  | .unique i => netCallbacks i
  | .sort i => netCallbacks i
  | .fold _ _ i => netCallbacks i
  | .foldKeyed _ _ i => netCallbacks i
  | .reduce _ i => netCallbacks i
  | .reduceKeyed _ i => netCallbacks i
  | .network _ _ _ _ _ inst _ i =>
    netCallbacks i ++
      (match inst with
        | .finalized _ _ (some c) => [c]
        | _ => [])

/-- Whether a `connect_network` run panicked. -/
def connectErrored (r : Except String (HNode × List ConnectFn)) : Bool :=
  match r with
  | .error _ => true
  | .ok _ => false

theorem connectNetwork_ready (n : HNode) (h : allNetworksReady n = true) :
    connectNetwork n = .ok (consume n, netCallbacks n) := by
  induction n with
  | placeholder => simp [allNetworksReady] at h
  | source s l => rfl
  | cycleSource i l => rfl
  | tee a => simp [allNetworksReady] at h
  | persist i ih =>
    simp only [allNetworksReady] at h
    simp [connectNetwork, ih h, consume, netCallbacks]
  | unpersist i ih =>
    simp only [allNetworksReady] at h
    simp [connectNetwork, ih h, consume, netCallbacks]
  | delta i ih =>
    simp only [allNetworksReady] at h
    simp [connectNetwork, ih h, consume, netCallbacks]
  | map fe i ih =>
    simp only [allNetworksReady] at h
    simp [connectNetwork, ih h, consume, netCallbacks]
  | flatMap fe i ih =>
    simp only [allNetworksReady] at h
    simp [connectNetwork, ih h, consume, netCallbacks]
  | filter fe i ih =>
    simp only [allNetworksReady] at h
    simp [connectNetwork, ih h, consume, netCallbacks]
  | filterMap fe i ih =>
    simp only [allNetworksReady] at h
    simp [connectNetwork, ih h, consume, netCallbacks]
  | deferTick i ih =>
    simp only [allNetworksReady] at h
    simp [connectNetwork, ih h, consume, netCallbacks]
  | enumerate st i ih =>
    simp only [allNetworksReady] at h
    simp [connectNetwork, ih h, consume, netCallbacks]
  | inspect fe i ih =>
    simp only [allNetworksReady] at h
    simp [connectNetwork, ih h, consume, netCallbacks]
  | unique i ih =>
    simp only [allNetworksReady] at h
    simp [connectNetwork, ih h, consume, netCallbacks]
  | sort i ih =>
    simp only [allNetworksReady] at h
    simp [connectNetwork, ih h, consume, netCallbacks]
  | fold fi fa i ih =>
    simp only [allNetworksReady] at h
    simp [connectNetwork, ih h, consume, netCallbacks]
  | foldKeyed fi fa i ih =>
    simp only [allNetworksReady] at h
    simp [connectNetwork, ih h, consume, netCallbacks]
  | reduce fe i ih =>
    simp only [allNetworksReady] at h
    simp [connectNetwork, ih h, consume, netCallbacks]
  | reduceKeyed fe i ih =>
    simp only [allNetworksReady] at h
    simp [connectNetwork, ih h, consume, netCallbacks]
  | chain l rr ihl ihr =>
    simp only [allNetworksReady, Bool.and_eq_true] at h
    simp [connectNetwork, ihl h.1, ihr h.2, consume, netCallbacks]
  | crossProduct l rr ihl ihr =>
    simp only [allNetworksReady, Bool.and_eq_true] at h
    simp [connectNetwork, ihl h.1, ihr h.2, consume, netCallbacks]
  | crossSingleton l rr ihl ihr =>
    simp only [allNetworksReady, Bool.and_eq_true] at h
    simp [connectNetwork, ihl h.1, ihr h.2, consume, netCallbacks]
  | join l rr ihl ihr =>
    simp only [allNetworksReady, Bool.and_eq_true] at h
    simp [connectNetwork, ihl h.1, ihr h.2, consume, netCallbacks]
  | difference l rr ihl ihr =>
    simp only [allNetworksReady, Bool.and_eq_true] at h
    simp [connectNetwork, ihl h.1, ihr h.2, consume, netCallbacks]
  | antiJoin l rr ihl ihr =>
    simp only [allNetworksReady, Bool.and_eq_true] at h
    simp [connectNetwork, ihl h.1, ihr h.2, consume, netCallbacks]
  | network fl fk tl tk sf inst df i ih =>
    simp only [allNetworksReady, Bool.and_eq_true] at h
    cases inst with
    | building => simp at h
    | finalized sk so cf =>
      cases cf with
      | none => simp at h
      | some c => simp [connectNetwork, ih h.2, consume, netCallbacks]


theorem connectNetwork_building (n : HNode) (h : hasBuilding n = true) :
    connectErrored (connectNetwork n) = true := by
  induction n with
  | placeholder => simp [hasBuilding] at h
  | source s l => simp [hasBuilding] at h
  | cycleSource i l => simp [hasBuilding] at h
  | tee a => simp [hasBuilding] at h
  | persist i ih =>
    simp only [hasBuilding] at h
    have he := ih h
    cases hc : connectNetwork i with
    | error e => simp [connectNetwork, hc, connectErrored]
    | ok r1 =>
      rw [hc] at he
      simp [connectErrored] at he
  | unpersist i ih =>
    simp only [hasBuilding] at h
    have he := ih h
    cases hc : connectNetwork i with
    | error e => simp [connectNetwork, hc, connectErrored]
    | ok r1 =>
      rw [hc] at he
      simp [connectErrored] at he
  | delta i ih =>
    simp only [hasBuilding] at h
    have he := ih h
    cases hc : connectNetwork i with
    | error e => simp [connectNetwork, hc, connectErrored]
    | ok r1 =>
      rw [hc] at he
      simp [connectErrored] at he
  | map fe i ih =>
    simp only [hasBuilding] at h
    have he := ih h
    cases hc : connectNetwork i with
    | error e => simp [connectNetwork, hc, connectErrored]
    | ok r1 =>
      rw [hc] at he
      simp [connectErrored] at he
  | flatMap fe i ih =>
    simp only [hasBuilding] at h
    have he := ih h
    cases hc : connectNetwork i with
    | error e => simp [connectNetwork, hc, connectErrored]
    | ok r1 =>
      rw [hc] at he
      simp [connectErrored] at he
  | filter fe i ih =>
    simp only [hasBuilding] at h
    have he := ih h
    cases hc : connectNetwork i with
    | error e => simp [connectNetwork, hc, connectErrored]
    | ok r1 =>
      rw [hc] at he
      simp [connectErrored] at he
  | filterMap fe i ih =>
    simp only [hasBuilding] at h
    have he := ih h
    cases hc : connectNetwork i with
    | error e => simp [connectNetwork, hc, connectErrored]
    | ok r1 =>
      rw [hc] at he
      simp [connectErrored] at he
  | deferTick i ih =>
    simp only [hasBuilding] at h
    have he := ih h
    cases hc : connectNetwork i with
    | error e => simp [connectNetwork, hc, connectErrored]
    | ok r1 =>
      rw [hc] at he
      simp [connectErrored] at he
  | enumerate st i ih =>
    simp only [hasBuilding] at h
    have he := ih h
    cases hc : connectNetwork i with
    | error e => simp [connectNetwork, hc, connectErrored]
    | ok r1 =>
      rw [hc] at he
      simp [connectErrored] at he
  | inspect fe i ih =>
    simp only [hasBuilding] at h
    have he := ih h
    cases hc : connectNetwork i with
    | error e => simp [connectNetwork, hc, connectErrored]
    | ok r1 =>
      rw [hc] at he
      simp [connectErrored] at he
  | unique i ih =>
    simp only [hasBuilding] at h
    have he := ih h
    cases hc : connectNetwork i with
    | error e => simp [connectNetwork, hc, connectErrored]
    | ok r1 =>
      rw [hc] at he
      simp [connectErrored] at he
  | sort i ih =>
    simp only [hasBuilding] at h
    have he := ih h
    cases hc : connectNetwork i with
    | error e => simp [connectNetwork, hc, connectErrored]
    | ok r1 =>
      rw [hc] at he
      simp [connectErrored] at he
  | fold fi fa i ih =>
    simp only [hasBuilding] at h
    have he := ih h
    cases hc : connectNetwork i with
    | error e => simp [connectNetwork, hc, connectErrored]
    | ok r1 =>
      rw [hc] at he
      simp [connectErrored] at he
  | foldKeyed fi fa i ih =>
    simp only [hasBuilding] at h
    have he := ih h
    cases hc : connectNetwork i with
    | error e => simp [connectNetwork, hc, connectErrored]
    | ok r1 =>
      rw [hc] at he
      simp [connectErrored] at he
  | reduce fe i ih =>
    simp only [hasBuilding] at h
    have he := ih h
    cases hc : connectNetwork i with
    | error e => simp [connectNetwork, hc, connectErrored]
    | ok r1 =>
      rw [hc] at he
      simp [connectErrored] at he
  | reduceKeyed fe i ih =>
    simp only [hasBuilding] at h
    have he := ih h
    cases hc : connectNetwork i with
    | error e => simp [connectNetwork, hc, connectErrored]
    | ok r1 =>
      rw [hc] at he
      simp [connectErrored] at he
  | chain l rr ihl ihr =>
    simp only [hasBuilding, Bool.or_eq_true] at h
    cases hcl : connectNetwork l with
    | error e => simp [connectNetwork, hcl, connectErrored]
    | ok r1 =>
      rcases h with h | h
      · have he := ihl h
        rw [hcl] at he
        simp [connectErrored] at he
      · have hr := ihr h
        cases hcr : connectNetwork rr with
        | error e => simp [connectNetwork, hcl, hcr, connectErrored]
        | ok r2 =>
          rw [hcr] at hr
          simp [connectErrored] at hr
  | crossProduct l rr ihl ihr =>
    simp only [hasBuilding, Bool.or_eq_true] at h
    cases hcl : connectNetwork l with
    | error e => simp [connectNetwork, hcl, connectErrored]
    | ok r1 =>
      rcases h with h | h
      · have he := ihl h
        rw [hcl] at he
        simp [connectErrored] at he
      · have hr := ihr h
        cases hcr : connectNetwork rr with
        | error e => simp [connectNetwork, hcl, hcr, connectErrored]
        | ok r2 =>
          rw [hcr] at hr
          simp [connectErrored] at hr
  | crossSingleton l rr ihl ihr =>
    simp only [hasBuilding, Bool.or_eq_true] at h
    cases hcl : connectNetwork l with
    | error e => simp [connectNetwork, hcl, connectErrored]
    | ok r1 =>
      rcases h with h | h
      · have he := ihl h
        rw [hcl] at he
        simp [connectErrored] at he
      · have hr := ihr h
        cases hcr : connectNetwork rr with
        | error e => simp [connectNetwork, hcl, hcr, connectErrored]
        | ok r2 =>
          rw [hcr] at hr
          simp [connectErrored] at hr
  | join l rr ihl ihr =>
    simp only [hasBuilding, Bool.or_eq_true] at h
    cases hcl : connectNetwork l with
    | error e => simp [connectNetwork, hcl, connectErrored]
    | ok r1 =>
      rcases h with h | h
      · have he := ihl h
        rw [hcl] at he
        simp [connectErrored] at he
      · have hr := ihr h
        cases hcr : connectNetwork rr with
        | error e => simp [connectNetwork, hcl, hcr, connectErrored]
        | ok r2 =>
          rw [hcr] at hr
          simp [connectErrored] at hr
  | difference l rr ihl ihr =>
    simp only [hasBuilding, Bool.or_eq_true] at h
    cases hcl : connectNetwork l with
    | error e => simp [connectNetwork, hcl, connectErrored]
    | ok r1 =>
      rcases h with h | h
      · have he := ihl h
        rw [hcl] at he
        simp [connectErrored] at he
      · have hr := ihr h
        cases hcr : connectNetwork rr with
        | error e => simp [connectNetwork, hcl, hcr, connectErrored]
        | ok r2 =>
          rw [hcr] at hr
          simp [connectErrored] at hr
  | antiJoin l rr ihl ihr =>
    simp only [hasBuilding, Bool.or_eq_true] at h
    cases hcl : connectNetwork l with
    | error e => simp [connectNetwork, hcl, connectErrored]
    | ok r1 =>
      rcases h with h | h
      · have he := ihl h
        rw [hcl] at he
        simp [connectErrored] at he
      · have hr := ihr h
        cases hcr : connectNetwork rr with
        | error e => simp [connectNetwork, hcl, hcr, connectErrored]
        | ok r2 =>
          rw [hcr] at hr
          simp [connectErrored] at hr
  | network fl fk tl tk sf inst df i ih =>
    simp only [hasBuilding, Bool.or_eq_true] at h
    cases hc : connectNetwork i with
    | error e => simp [connectNetwork, hc, connectErrored]
    | ok r1 =>
      rcases h with h | h
      · cases inst with
        | building => simp [connectNetwork, hc, connectErrored]
        | finalized sk so cf => simp at h
      · have he := ih h
        rw [hc] at he
        simp [connectErrored] at he


theorem connectNetwork_consumed (n : HNode) (hcons : allNetsConsumed n = true)
    (hnet : hasNetwork n = true) : connectErrored (connectNetwork n) = true := by
  induction n with
  | placeholder => simp [hasNetwork] at hnet
  | source s l => simp [hasNetwork] at hnet
  | cycleSource i l => simp [hasNetwork] at hnet
  | tee a => simp [hasNetwork] at hnet
  | persist i ih =>
    simp only [allNetsConsumed] at hcons
    simp only [hasNetwork] at hnet
    have he := ih hcons hnet
    cases hc : connectNetwork i with
    | error e => simp [connectNetwork, hc, connectErrored]
    | ok r1 =>
      rw [hc] at he
      simp [connectErrored] at he
  | unpersist i ih =>
    simp only [allNetsConsumed] at hcons
    simp only [hasNetwork] at hnet
    have he := ih hcons hnet
    cases hc : connectNetwork i with
    | error e => simp [connectNetwork, hc, connectErrored]
    | ok r1 =>
      rw [hc] at he
      simp [connectErrored] at he
  | delta i ih =>
    simp only [allNetsConsumed] at hcons
    simp only [hasNetwork] at hnet
    have he := ih hcons hnet
    cases hc : connectNetwork i with
    | error e => simp [connectNetwork, hc, connectErrored]
    | ok r1 =>
      rw [hc] at he
      simp [connectErrored] at he
  | map fe i ih =>
    simp only [allNetsConsumed] at hcons
    simp only [hasNetwork] at hnet
    have he := ih hcons hnet
    cases hc : connectNetwork i with
    | error e => simp [connectNetwork, hc, connectErrored]
    | ok r1 =>
      rw [hc] at he
      simp [connectErrored] at he
  | flatMap fe i ih =>
    simp only [allNetsConsumed] at hcons
    simp only [hasNetwork] at hnet
    have he := ih hcons hnet
    cases hc : connectNetwork i with
    | error e => simp [connectNetwork, hc, connectErrored]
    | ok r1 =>
      rw [hc] at he
      simp [connectErrored] at he
  | filter fe i ih =>
    simp only [allNetsConsumed] at hcons
    simp only [hasNetwork] at hnet
    have he := ih hcons hnet
    cases hc : connectNetwork i with
    | error e => simp [connectNetwork, hc, connectErrored]
    | ok r1 =>
      rw [hc] at he
      simp [connectErrored] at he
  | filterMap fe i ih =>
    simp only [allNetsConsumed] at hcons
    simp only [hasNetwork] at hnet
    have he := ih hcons hnet
    cases hc : connectNetwork i with
    | error e => simp [connectNetwork, hc, connectErrored]
    | ok r1 =>
      rw [hc] at he
      simp [connectErrored] at he
  | deferTick i ih =>
    simp only [allNetsConsumed] at hcons
    simp only [hasNetwork] at hnet
    have he := ih hcons hnet
    cases hc : connectNetwork i with
    | error e => simp [connectNetwork, hc, connectErrored]
    | ok r1 =>
      rw [hc] at he
      simp [connectErrored] at he
  | enumerate st i ih =>
    simp only [allNetsConsumed] at hcons
    simp only [hasNetwork] at hnet
    have he := ih hcons hnet
    cases hc : connectNetwork i with
    | error e => simp [connectNetwork, hc, connectErrored]
    | ok r1 =>
      rw [hc] at he
      simp [connectErrored] at he
  | inspect fe i ih =>
    simp only [allNetsConsumed] at hcons
    simp only [hasNetwork] at hnet
    have he := ih hcons hnet
    cases hc : connectNetwork i with
    | error e => simp [connectNetwork, hc, connectErrored]
    | ok r1 =>
      rw [hc] at he
      simp [connectErrored] at he
  | unique i ih =>
    simp only [allNetsConsumed] at hcons
    simp only [hasNetwork] at hnet
    have he := ih hcons hnet
    cases hc : connectNetwork i with
    | error e => simp [connectNetwork, hc, connectErrored]
    | ok r1 =>
      rw [hc] at he
      simp [connectErrored] at he
  | sort i ih =>
    simp only [allNetsConsumed] at hcons
    simp only [hasNetwork] at hnet
    have he := ih hcons hnet
    cases hc : connectNetwork i with
    | error e => simp [connectNetwork, hc, connectErrored]
    | ok r1 =>
      rw [hc] at he
      simp [connectErrored] at he
  | fold fi fa i ih =>
    simp only [allNetsConsumed] at hcons
    simp only [hasNetwork] at hnet
    have he := ih hcons hnet
    cases hc : connectNetwork i with
    | error e => simp [connectNetwork, hc, connectErrored]
    | ok r1 =>
      rw [hc] at he
      simp [connectErrored] at he
  | foldKeyed fi fa i ih =>
    simp only [allNetsConsumed] at hcons
    simp only [hasNetwork] at hnet
    have he := ih hcons hnet
    cases hc : connectNetwork i with
    | error e => simp [connectNetwork, hc, connectErrored]
    | ok r1 =>
      rw [hc] at he
      simp [connectErrored] at he
  | reduce fe i ih =>
    simp only [allNetsConsumed] at hcons
    simp only [hasNetwork] at hnet
    have he := ih hcons hnet
    cases hc : connectNetwork i with
    | error e => simp [connectNetwork, hc, connectErrored]
    | ok r1 =>
      rw [hc] at he
      simp [connectErrored] at he
  | reduceKeyed fe i ih =>
    simp only [allNetsConsumed] at hcons
    simp only [hasNetwork] at hnet
    have he := ih hcons hnet
    cases hc : connectNetwork i with
    | error e => simp [connectNetwork, hc, connectErrored]
    | ok r1 =>
      rw [hc] at he
      simp [connectErrored] at he
  | chain l rr ihl ihr =>
    simp only [allNetsConsumed, Bool.and_eq_true] at hcons
    simp only [hasNetwork, Bool.or_eq_true] at hnet
    cases hcl : connectNetwork l with
    | error e => simp [connectNetwork, hcl, connectErrored]
    | ok r1 =>
      rcases hnet with h | h
      · have he := ihl hcons.1 h
        rw [hcl] at he
        simp [connectErrored] at he
      · have hr := ihr hcons.2 h
        cases hcr : connectNetwork rr with
        | error e => simp [connectNetwork, hcl, hcr, connectErrored]
        | ok r2 =>
          rw [hcr] at hr
          simp [connectErrored] at hr
  | crossProduct l rr ihl ihr =>
    simp only [allNetsConsumed, Bool.and_eq_true] at hcons
    simp only [hasNetwork, Bool.or_eq_true] at hnet
    cases hcl : connectNetwork l with
    | error e => simp [connectNetwork, hcl, connectErrored]
    | ok r1 =>
      rcases hnet with h | h
      · have he := ihl hcons.1 h
        rw [hcl] at he
        simp [connectErrored] at he
      · have hr := ihr hcons.2 h
        cases hcr : connectNetwork rr with
        | error e => simp [connectNetwork, hcl, hcr, connectErrored]
        | ok r2 =>
          rw [hcr] at hr
          simp [connectErrored] at hr
  | crossSingleton l rr ihl ihr =>
    simp only [allNetsConsumed, Bool.and_eq_true] at hcons
    simp only [hasNetwork, Bool.or_eq_true] at hnet
    cases hcl : connectNetwork l with
    | error e => simp [connectNetwork, hcl, connectErrored]
    | ok r1 =>
      rcases hnet with h | h
      · have he := ihl hcons.1 h
        rw [hcl] at he
        simp [connectErrored] at he
      · have hr := ihr hcons.2 h
        cases hcr : connectNetwork rr with
        | error e => simp [connectNetwork, hcl, hcr, connectErrored]
        | ok r2 =>
          rw [hcr] at hr
          simp [connectErrored] at hr
  | join l rr ihl ihr =>
    simp only [allNetsConsumed, Bool.and_eq_true] at hcons
    simp only [hasNetwork, Bool.or_eq_true] at hnet
    cases hcl : connectNetwork l with
    | error e => simp [connectNetwork, hcl, connectErrored]
    | ok r1 =>
      rcases hnet with h | h
      · have he := ihl hcons.1 h
        rw [hcl] at he
        simp [connectErrored] at he
      · have hr := ihr hcons.2 h
        cases hcr : connectNetwork rr with
        | error e => simp [connectNetwork, hcl, hcr, connectErrored]
        | ok r2 =>
          rw [hcr] at hr
          simp [connectErrored] at hr
  | difference l rr ihl ihr =>
    simp only [allNetsConsumed, Bool.and_eq_true] at hcons
    simp only [hasNetwork, Bool.or_eq_true] at hnet
    cases hcl : connectNetwork l with
    | error e => simp [connectNetwork, hcl, connectErrored]
    | ok r1 =>
      rcases hnet with h | h
      · have he := ihl hcons.1 h
        rw [hcl] at he
        simp [connectErrored] at he
      · have hr := ihr hcons.2 h
        cases hcr : connectNetwork rr with
        | error e => simp [connectNetwork, hcl, hcr, connectErrored]
        | ok r2 =>
          rw [hcr] at hr
          simp [connectErrored] at hr
  | antiJoin l rr ihl ihr =>
    simp only [allNetsConsumed, Bool.and_eq_true] at hcons
    simp only [hasNetwork, Bool.or_eq_true] at hnet
    cases hcl : connectNetwork l with
    | error e => simp [connectNetwork, hcl, connectErrored]
    | ok r1 =>
      rcases hnet with h | h
      · have he := ihl hcons.1 h
        rw [hcl] at he
        simp [connectErrored] at he
      · have hr := ihr hcons.2 h
        cases hcr : connectNetwork rr with
        | error e => simp [connectNetwork, hcl, hcr, connectErrored]
        | ok r2 =>
          rw [hcr] at hr
          simp [connectErrored] at hr
  | network fl fk tl tk sf inst df i ih =>
    simp only [allNetsConsumed, Bool.and_eq_true] at hcons
    cases hc : connectNetwork i with
    | error e => simp [connectNetwork, hc, connectErrored]
    | ok r1 =>
      cases inst with
      | building => simp at hcons
      | finalized sk so cf =>
        cases cf with
        | some c => simp at hcons
        | none => simp [connectNetwork, hc, connectErrored]


theorem consume_consumed (n : HNode) (h : allNetworksReady n = true) :
    allNetsConsumed (consume n) = true := by
  induction n with
  | placeholder => simp [allNetworksReady] at h
  | source s l => rfl
  | cycleSource i l => rfl
  | tee a => simp [allNetworksReady] at h
  | persist i ih =>
    simp only [allNetworksReady] at h
    simp [consume, allNetsConsumed, ih h]
  | unpersist i ih =>
    simp only [allNetworksReady] at h
    simp [consume, allNetsConsumed, ih h]
  | delta i ih =>
    simp only [allNetworksReady] at h
    simp [consume, allNetsConsumed, ih h]
  | map fe i ih =>
    simp only [allNetworksReady] at h
    simp [consume, allNetsConsumed, ih h]
  | flatMap fe i ih =>
    simp only [allNetworksReady] at h
    simp [consume, allNetsConsumed, ih h]
  | filter fe i ih =>
    simp only [allNetworksReady] at h
    simp [consume, allNetsConsumed, ih h]
  | filterMap fe i ih =>
    simp only [allNetworksReady] at h
    simp [consume, allNetsConsumed, ih h]
  | deferTick i ih =>
    simp only [allNetworksReady] at h
    simp [consume, allNetsConsumed, ih h]
  | enumerate st i ih =>
    simp only [allNetworksReady] at h
    simp [consume, allNetsConsumed, ih h]
  | inspect fe i ih =>
    simp only [allNetworksReady] at h
    simp [consume, allNetsConsumed, ih h]
  | unique i ih =>
    simp only [allNetworksReady] at h
    simp [consume, allNetsConsumed, ih h]
  | sort i ih =>
    simp only [allNetworksReady] at h
    simp [consume, allNetsConsumed, ih h]
  | fold fi fa i ih =>
    simp only [allNetworksReady] at h
    simp [consume, allNetsConsumed, ih h]
  | foldKeyed fi fa i ih =>
    simp only [allNetworksReady] at h
    simp [consume, allNetsConsumed, ih h]
  | reduce fe i ih =>
    simp only [allNetworksReady] at h
    simp [consume, allNetsConsumed, ih h]
  | reduceKeyed fe i ih =>
    simp only [allNetworksReady] at h
    simp [consume, allNetsConsumed, ih h]
  | chain l rr ihl ihr =>
    simp only [allNetworksReady, Bool.and_eq_true] at h
    simp [consume, allNetsConsumed, ihl h.1, ihr h.2]
  | crossProduct l rr ihl ihr =>
    simp only [allNetworksReady, Bool.and_eq_true] at h
    simp [consume, allNetsConsumed, ihl h.1, ihr h.2]
  | crossSingleton l rr ihl ihr =>
    simp only [allNetworksReady, Bool.and_eq_true] at h
    simp [consume, allNetsConsumed, ihl h.1, ihr h.2]
  | join l rr ihl ihr =>
    simp only [allNetworksReady, Bool.and_eq_true] at h
    simp [consume, allNetsConsumed, ihl h.1, ihr h.2]
  | difference l rr ihl ihr =>
    simp only [allNetworksReady, Bool.and_eq_true] at h
    simp [consume, allNetsConsumed, ihl h.1, ihr h.2]
  | antiJoin l rr ihl ihr =>
    simp only [allNetworksReady, Bool.and_eq_true] at h
    simp [consume, allNetsConsumed, ihl h.1, ihr h.2]
  | network fl fk tl tk sf inst df i ih =>
    simp only [allNetworksReady, Bool.and_eq_true] at h
    cases inst with
    | building => simp at h
    | finalized sk so cf =>
      cases cf with
      | none => simp at h
      | some c => simp [consume, allNetsConsumed, ih h.2]


theorem consume_hasNetwork (n : HNode) : hasNetwork (consume n) = hasNetwork n := by
  induction n with
  | placeholder => rfl
  | source s l => rfl
  | cycleSource i l => rfl
  | tee a => rfl
  | persist i ih => simp [consume, hasNetwork, ih]
  | unpersist i ih => simp [consume, hasNetwork, ih]
  | delta i ih => simp [consume, hasNetwork, ih]
  | map fe i ih => simp [consume, hasNetwork, ih]
  | flatMap fe i ih => simp [consume, hasNetwork, ih]
  | filter fe i ih => simp [consume, hasNetwork, ih]
  | filterMap fe i ih => simp [consume, hasNetwork, ih]
  | deferTick i ih => simp [consume, hasNetwork, ih]
  | enumerate st i ih => simp [consume, hasNetwork, ih]
  | inspect fe i ih => simp [consume, hasNetwork, ih]
  | unique i ih => simp [consume, hasNetwork, ih]
  | sort i ih => simp [consume, hasNetwork, ih]
  | fold fi fa i ih => simp [consume, hasNetwork, ih]
  | foldKeyed fi fa i ih => simp [consume, hasNetwork, ih]
  | reduce fe i ih => simp [consume, hasNetwork, ih]
  | reduceKeyed fe i ih => simp [consume, hasNetwork, ih]
  | chain l rr ihl ihr => simp [consume, hasNetwork, ihl, ihr]
  | crossProduct l rr ihl ihr => simp [consume, hasNetwork, ihl, ihr]
  | crossSingleton l rr ihl ihr => simp [consume, hasNetwork, ihl, ihr]
  | join l rr ihl ihr => simp [consume, hasNetwork, ihl, ihr]
  | difference l rr ihl ihr => simp [consume, hasNetwork, ihl, ihr]
  | antiJoin l rr ihl ihr => simp [consume, hasNetwork, ihl, ihr]
  | network fl fk tl tk sf inst df i ih => simp [consume, hasNetwork]

/-- **C8.** On a (tee-free, placeholder-free) IR graph whose `Network`
nodes are all `Finalized` with their callbacks present, `connect_network`
succeeds, invoking each network's connect callback exactly once (the
result list is exactly the post-order list of all network callbacks) and
leaving every callback consumed; it panics if any `Network` is still
`Building`; and — because the first run consumed every callback — a
second run on the resulting graph panics whenever the graph contains a
`Network` node at all. -/
theorem claim_C8_connect_network :
    (∀ n : HNode, allNetworksReady n = true →
      connectNetwork n = .ok (consume n, netCallbacks n))
    ∧ (∀ n : HNode, hasBuilding n = true →
      connectErrored (connectNetwork n) = true)
    ∧ (∀ n : HNode, allNetworksReady n = true → hasNetwork n = true →
      connectErrored (connectNetwork (consume n)) = true) := by
  refine ⟨connectNetwork_ready, connectNetwork_building, ?_⟩
  intro n h1 h2
  refine connectNetwork_consumed (consume n) (consume_consumed n h1) ?_
  rw [consume_hasNetwork]
  exact h2

/-- A one-network IR graph: `Process(1) -> Process(2)`, finalized with
sink token 10, source token 11 and callback token 42, fed by a spin
source. -/
def nC8 : HNode :=
  .network (.process 1) none (.process 2) none none
    (.finalized 10 11 (some 42)) none (.source .spin (.process 1))

/-- Witness for C8 on `nC8`: the first run invokes callback `42` once and
consumes it; the second run on the result panics. -/
theorem claim_C8_witness :
    connectNetwork nC8 = .ok (consume nC8, netCallbacks nC8)
    ∧ connectErrored (connectNetwork (consume nC8)) = true :=
  ⟨claim_C8_connect_network.1 nC8 rfl,
    claim_C8_connect_network.2.2 nC8 rfl rfl⟩
